import Mathlib

/-!
Shallow embedding of the `electric_waltz` grid-balancing simulator
(modules `source.py`, `storage.py`, `cross_border.py`, `dispatch.py`,
`scenario.py`).  All power/energy quantities are modelled as rationals,
so arithmetic is exact; Python `assert`-based construction validation is
modelled by `Option`-returning checked constructors, while the raw
structure literals mirror the attributes the Python objects store.
-/

namespace ElectricWaltz

/-- Embedding of `PowerSource` (source.py): name, nominal capacity, self-consumption
fraction and current utilisation (capacity factor). -/
structure PowerSource where
  name : String
  nominal : ℚ
  selfConsumption : ℚ
  utilisation : ℚ
deriving DecidableEq

/-- The `assert` clauses of `PowerSource.__init__` / the utilisation setter. -/
def PowerSource.validParams (s : PowerSource) : Prop :=
  0 < s.name.length ∧ 0 < s.nominal ∧
    0 ≤ s.selfConsumption ∧ s.selfConsumption < 1

instance (s : PowerSource) : Decidable s.validParams := by
  unfold PowerSource.validParams; infer_instance

/-- Checked constructor mirroring `PowerSource.__init__` with its asserts. -/
def PowerSource.init (name : String) (nominal : ℚ) (selfConsumption : ℚ)
    (utilisation : ℚ) : Option PowerSource :=
  if 0 < name.length ∧ 0 < nominal ∧ 0 ≤ selfConsumption ∧ selfConsumption < 1
      ∧ 0 ≤ utilisation ∧ utilisation ≤ 1 then
    some ⟨name, nominal, selfConsumption, utilisation⟩
  else
    none

/-- Embedding of `PowerSource.generation`: gross generation `utilisation * nominal`. -/
def PowerSource.generation (s : PowerSource) : ℚ :=
  s.utilisation * s.nominal

/-- Embedding of `PowerSource.net_generation`: `generation * (1 - self_consumption)`. -/
def PowerSource.netGeneration (s : PowerSource) : ℚ :=
  s.generation * (1 - s.selfConsumption)

/-- The quantity `nominal * (1 - self_consumption)` as computed inside `dispatch_at`. -/
def PowerSource.maxNetPower (s : PowerSource) : ℚ :=
  s.nominal * (1 - s.selfConsumption)

/-- The utilisation setter (`@utilisation.setter`). -/
def PowerSource.setUtilisation (s : PowerSource) (value : ℚ) : PowerSource :=
  { s with utilisation := value }

/-- Embedding of `DispatchableSource.dispatch_at`: sets
`utilisation = min(power / max_net_power, 1)` and returns the resulting
net generation. -/
def PowerSource.dispatchAt (s : PowerSource) (power : ℚ) : PowerSource × ℚ :=
  let s1 := { s with utilisation := min (power / s.maxNetPower) 1 }
  (s1, s1.netGeneration)

/-- Embedding of `DispatchableSource.shut_down`: forces utilisation to 0. -/
def PowerSource.shutDown (s : PowerSource) : PowerSource :=
  { s with utilisation := 0 }

/-- Internal state of a `ThermalPowerPlant` (`_ShutDown`, `_StartingUp`,
`_Running` dataclasses with their counters). -/
inductive PlantState where
  | shutDown (downtime : ℕ)
  | startingUp (phase : ℕ)
  | running (uptime : ℕ)
deriving DecidableEq

/-- Embedding of `ThermalPowerPlant`: a dispatchable source with minimum-load,
minimum-uptime/downtime and startup-time dynamics. -/
structure ThermalPowerPlant where
  name : String
  nominal : ℚ
  selfConsumption : ℚ
  utilisation : ℚ
  minLoad : ℚ
  minDowntime : ℕ
  minUptime : ℕ
  startupTime : ℕ
  state : PlantState
deriving DecidableEq

/-- Raw `ThermalPowerPlant.__init__` body: utilisation 0, initial state
`_ShutDown(min_downtime)`. -/
def mkThermal (name : String) (nominal selfConsumption minLoad : ℚ)
    (minDowntime minUptime startupTime : ℕ) : ThermalPowerPlant :=
  { name := name
    nominal := nominal
    selfConsumption := selfConsumption
    utilisation := 0
    minLoad := minLoad
    minDowntime := minDowntime
    minUptime := minUptime
    startupTime := startupTime
    state := PlantState.shutDown minDowntime }

/-- Checked constructor mirroring `ThermalPowerPlant.__init__` asserts
(those of `PowerSource.__init__` plus `0 <= min_load <= 1`). -/
def ThermalPowerPlant.init (name : String)
    (nominal selfConsumption minLoad : ℚ)
    (minDowntime minUptime startupTime : ℕ) : Option ThermalPowerPlant :=
  if 0 < name.length ∧ 0 < nominal ∧ 0 ≤ selfConsumption ∧ selfConsumption < 1
      ∧ 0 ≤ minLoad ∧ minLoad ≤ 1 then
    some (mkThermal name nominal selfConsumption minLoad
      minDowntime minUptime startupTime)
  else
    none

/-- The quantity `nominal * (1 - self_consumption)` for a thermal plant. -/
def ThermalPowerPlant.maxNetPower (t : ThermalPowerPlant) : ℚ :=
  t.nominal * (1 - t.selfConsumption)

/-- Net generation of a thermal plant
(`utilisation * nominal * (1 - self_consumption)`). -/
def ThermalPowerPlant.netGeneration (t : ThermalPowerPlant) : ℚ :=
  t.utilisation * t.nominal * (1 - t.selfConsumption)

/-- Embedding of `ThermalPowerPlant.shut_down`: from `_ShutDown(d)` increments the
downtime counter; from `_StartingUp` or `_Running` moves to
`_ShutDown(1)`; utilisation becomes 0 in every case. -/
def ThermalPowerPlant.shutDown (t : ThermalPowerPlant) : ThermalPowerPlant :=
  match t.state with
  | PlantState.shutDown d =>
      { t with state := PlantState.shutDown (d + 1), utilisation := 0 }
  | PlantState.startingUp _ =>
      { t with state := PlantState.shutDown 1, utilisation := 0 }
  | PlantState.running _ =>
      { t with state := PlantState.shutDown 1, utilisation := 0 }

/-- Embedding of `ThermalPowerPlant.dispatch_at`: the three-way state machine.  Returns
the updated plant and its net generation after the request. -/
def ThermalPowerPlant.dispatchAt (t : ThermalPowerPlant) (power : ℚ) :
    ThermalPowerPlant × ℚ :=
  let requiredFactor := min (power / t.maxNetPower) 1
  let t1 :=
    match t.state with
    | PlantState.shutDown d =>
        if power < t.minLoad * t.nominal ∨ d < t.minDowntime then
          { t with state := PlantState.shutDown (d + 1) }
        else if 0 < t.startupTime then
          { t with state := PlantState.startingUp 0 }
        else
          { t with state := PlantState.running 1,
                   utilisation := requiredFactor }
    | PlantState.startingUp phase =>
        if phase = t.startupTime then
          let tr := { t with state := PlantState.running 1 }
          if power < t.minLoad * t.nominal then
            if t.minUptime = 0 then
              tr.shutDown
            else
              { tr with utilisation := t.minLoad }
          else
            { tr with utilisation := requiredFactor }
        else
          { t with state := PlantState.startingUp (phase + 1),
                   utilisation := ((phase : ℚ) + 1) / (t.startupTime : ℚ)
                     * t.minLoad / (1 - t.selfConsumption) }
    | PlantState.running u =>
        let tr := { t with state := PlantState.running (u + 1) }
        if power < t.minLoad * t.nominal then
          if u + 1 < t.minUptime then
            { tr with utilisation := t.minLoad }
          else
            tr.shutDown
        else
          { tr with utilisation := requiredFactor }
  (t1, t1.netGeneration)

/-- Feed a list of dispatch requests to a thermal plant one step at a
time, collecting the returned net generations. -/
def ThermalPowerPlant.dispatchSeq (t : ThermalPowerPlant) :
    List ℚ → ThermalPowerPlant × List ℚ
  | [] => (t, [])
  | p :: ps =>
      let step1 := t.dispatchAt p
      let rest := step1.1.dispatchSeq ps
      (rest.1, step1.2 :: rest.2)

/-- The construction-time parameters of a thermal plant, bundled to
state that dispatching only ever mutates the state and utilisation. -/
def ThermalPowerPlant.params (t : ThermalPowerPlant) :
    String × ℚ × ℚ × ℚ × ℕ × ℕ × ℕ :=
  (t.name, t.nominal, t.selfConsumption, t.minLoad, t.minDowntime,
    t.minUptime, t.startupTime)

/-- The `assert` clauses of `ThermalPowerPlant.__init__`: those of
`PowerSource.__init__` plus `0 <= min_load <= 1`. -/
def ThermalPowerPlant.validParams (t : ThermalPowerPlant) : Prop :=
  0 < t.name.length ∧ 0 < t.nominal ∧ 0 ≤ t.selfConsumption ∧
    t.selfConsumption < 1 ∧ 0 ≤ t.minLoad ∧ t.minLoad ≤ 1

instance (t : ThermalPowerPlant) : Decidable t.validParams := by
  unfold ThermalPowerPlant.validParams; infer_instance

/-- A flexible unit handed to Python's `SourceDispatcher` / `Scenario`
(`list[DispatchableSource]`): either a plain `DispatchableSource` or a
`ThermalPowerPlant`, the two dispatchable classes of the repository. -/
inductive FlexibleSource where
  | plain (s : PowerSource)
  | thermal (t : ThermalPowerPlant)
deriving DecidableEq

/-- The unit's textual identifier. -/
def FlexibleSource.name : FlexibleSource → String
  | FlexibleSource.plain s => s.name
  | FlexibleSource.thermal t => t.name

/-- The unit's current utilisation (capacity factor). -/
def FlexibleSource.utilisation : FlexibleSource → ℚ
  | FlexibleSource.plain s => s.utilisation
  | FlexibleSource.thermal t => t.utilisation

/-- The unit's `nominal * (1 - self_consumption)`. -/
def FlexibleSource.maxNetPower : FlexibleSource → ℚ
  | FlexibleSource.plain s => s.maxNetPower
  | FlexibleSource.thermal t => t.maxNetPower

/-- The unit's net generation. -/
def FlexibleSource.netGeneration : FlexibleSource → ℚ
  | FlexibleSource.plain s => s.netGeneration
  | FlexibleSource.thermal t => t.netGeneration

/-- Dynamic dispatch of `dispatch_at` over the two dispatchable classes. -/
def FlexibleSource.dispatchAt : FlexibleSource → ℚ → FlexibleSource × ℚ
  | FlexibleSource.plain s, p =>
      let r := s.dispatchAt p
      (FlexibleSource.plain r.1, r.2)
  | FlexibleSource.thermal t, p =>
      let r := t.dispatchAt p
      (FlexibleSource.thermal r.1, r.2)

/-- Dynamic dispatch of `shut_down` over the two dispatchable classes. -/
def FlexibleSource.shutDown : FlexibleSource → FlexibleSource
  | FlexibleSource.plain s => FlexibleSource.plain s.shutDown
  | FlexibleSource.thermal t => FlexibleSource.thermal t.shutDown

/-- The unit was constructed with valid parameters (the asserts of the
matching Python constructor). -/
def FlexibleSource.validParams : FlexibleSource → Prop
  | FlexibleSource.plain s => s.validParams
  | FlexibleSource.thermal t => t.validParams

/-- The unit is a plain `DispatchableSource` (not a thermal plant). -/
def FlexibleSource.isPlain (f : FlexibleSource) : Prop :=
  ∃ s, f = FlexibleSource.plain s

/-- Embedding of `EnergyStorage` (storage.py): aggregate storage unit with nominal
power, maximum stored energy, charging efficiency, and mutable current
energy / current output. -/
structure EnergyStorage where
  name : String
  nominal : ℚ
  maxStorage : ℚ
  efficiency : ℚ
  currentEnergy : ℚ
  currentOutput : ℚ
deriving DecidableEq

/-- The `assert` clauses of `EnergyStorage.__init__`. -/
def EnergyStorage.validParams (s : EnergyStorage) : Prop :=
  0 < s.name.length ∧ 0 < s.nominal ∧ 0 < s.maxStorage ∧
    0 < s.efficiency ∧ s.efficiency ≤ 1

instance (s : EnergyStorage) : Decidable s.validParams := by
  unfold EnergyStorage.validParams; infer_instance

/-- Checked constructor mirroring `EnergyStorage.__init__`: validates the
parameters and initialises current energy and output to 0. -/
def EnergyStorage.init (name : String) (nominal maxStorage efficiency : ℚ) :
    Option EnergyStorage :=
  if 0 < name.length ∧ 0 < nominal ∧ 0 < maxStorage ∧ 0 < efficiency
      ∧ efficiency ≤ 1 then
    some ⟨name, nominal, maxStorage, efficiency, 0, 0⟩
  else
    none

/-- Embedding of `EnergyStorage.remaining_capacity`. -/
def EnergyStorage.remainingCapacity (s : EnergyStorage) : ℚ :=
  s.maxStorage - s.currentEnergy

/-- Embedding of `EnergyStorage.charge_at`: charge with
`min(power, nominal, remaining_capacity)`; energy grows by
`efficiency * charging`; output becomes `-charging`. -/
def EnergyStorage.chargeAt (s : EnergyStorage) (power : ℚ) :
    EnergyStorage × ℚ :=
  let charging := min power (min s.nominal s.remainingCapacity)
  ({ s with currentEnergy := s.currentEnergy + s.efficiency * charging,
            currentOutput := -charging }, charging)

/-- Embedding of `EnergyStorage.discharge_at`: discharge with
`min(power, current_energy, nominal)`; energy shrinks by that amount;
output becomes the discharged power. -/
def EnergyStorage.dischargeAt (s : EnergyStorage) (power : ℚ) :
    EnergyStorage × ℚ :=
  let discharging := min power (min s.currentEnergy s.nominal)
  ({ s with currentEnergy := s.currentEnergy - discharging,
            currentOutput := discharging }, discharging)

/-- Embedding of `CrossBorderTerminal` (cross_border.py): capacity plus the net import
of the current step.  Its `__init__` performs no validation. -/
structure CrossBorderTerminal where
  capacity : ℚ
  netImport : ℚ
deriving DecidableEq

/-- Embedding of `CrossBorderTerminal.__init__`: stores the capacity unchecked and
sets net import to 0. -/
def CrossBorderTerminal.init (capacity : ℚ) : CrossBorderTerminal :=
  ⟨capacity, 0⟩

/-- Embedding of `CrossBorderTerminal.export_at`: net import becomes
`-min(capacity, power)`; returns the exported power. -/
def CrossBorderTerminal.exportAt (t : CrossBorderTerminal) (power : ℚ) :
    CrossBorderTerminal × ℚ :=
  let t1 := { t with netImport := -(min t.capacity power) }
  (t1, -t1.netImport)

/-- Embedding of `CrossBorderTerminal.import_at`: net import becomes
`min(capacity, power)`; returns the imported power. -/
def CrossBorderTerminal.importAt (t : CrossBorderTerminal) (power : ℚ) :
    CrossBorderTerminal × ℚ :=
  let t1 := { t with netImport := min t.capacity power }
  (t1, t1.netImport)

/-- The loop body of `SourceDispatcher.dispatch_at` (dispatch.py): each
unit, in list order, is asked for `max(0, power - generation_so_far)` and
the returned net generations accumulate. -/
def dispatchSources : List FlexibleSource → ℚ → ℚ → List FlexibleSource × ℚ
  | [], _, acc => ([], acc)
  | u :: rest, power, acc =>
      let r := u.dispatchAt (max 0 (power - acc))
      let rec1 := dispatchSources rest power (acc + r.2)
      (r.1 :: rec1.1, rec1.2)

/-- Embedding of `SourceDispatcher.dispatch_at`: run the accumulating loop from 0. -/
def SourceDispatcher.dispatchAt (units : List FlexibleSource) (power : ℚ) :
    List FlexibleSource × ℚ :=
  dispatchSources units power 0

/-- Embedding of `SourceDispatcher.shut_down_all`. -/
def SourceDispatcher.shutDownAll (units : List FlexibleSource) :
    List FlexibleSource :=
  units.map FlexibleSource.shutDown

/-- The loop body of `StorageDispatcher.charge_at`. -/
def chargeStorages : List EnergyStorage → ℚ → ℚ → List EnergyStorage × ℚ
  | [], _, acc => ([], acc)
  | u :: rest, power, acc =>
      let r := u.chargeAt (max 0 (power - acc))
      let rec1 := chargeStorages rest power (acc + r.2)
      (r.1 :: rec1.1, rec1.2)

/-- Embedding of `StorageDispatcher.charge_at`. -/
def StorageDispatcher.chargeAt (units : List EnergyStorage) (power : ℚ) :
    List EnergyStorage × ℚ :=
  chargeStorages units power 0

/-- The loop body of `StorageDispatcher.discharge_at`. -/
def dischargeStorages : List EnergyStorage → ℚ → ℚ → List EnergyStorage × ℚ
  | [], _, acc => ([], acc)
  | u :: rest, power, acc =>
      let r := u.dischargeAt (max 0 (power - acc))
      let rec1 := dischargeStorages rest power (acc + r.2)
      (r.1 :: rec1.1, rec1.2)

/-- Embedding of `StorageDispatcher.discharge_at`. -/
def StorageDispatcher.dischargeAt (units : List EnergyStorage) (power : ℚ) :
    List EnergyStorage × ℚ :=
  dischargeStorages units power 0

/-- The mutable grid resources touched by one `Scenario._step` call:
the flexible (dispatchable) sources, the storage units and the optional
cross-border terminal. -/
structure GridState where
  flexibles : List FlexibleSource
  storages : List EnergyStorage
  crossBorder : Option CrossBorderTerminal
deriving DecidableEq

/-- Embedding of `Scenario._step` (scenario.py): the per-step balancing algorithm.
`inflexibleGeneration` is the already-computed net generation of the
baseload and intermittent sources; `consumption` is the gross
consumption.  Returns the updated resources and the recorded shortage
(positive) or dump (negative) value. -/
def scenarioStep (inflexibleGeneration consumption : ℚ) (g : GridState) :
    GridState × ℚ :=
  if consumption ≤ inflexibleGeneration then
    let flexibles := SourceDispatcher.shutDownAll g.flexibles
    let surplus := inflexibleGeneration - consumption
    let charged := StorageDispatcher.chargeAt g.storages surplus
    let surplus1 := max 0 (surplus - charged.2)
    let exported :=
      match g.crossBorder with
      | some t =>
          let r := t.exportAt surplus1
          (some r.1, r.2)
      | none => (none, 0)
    (⟨flexibles, charged.1, exported.1⟩, -(max 0 (surplus1 - exported.2)))
  else
    let deficit := consumption - inflexibleGeneration
    let discharged := StorageDispatcher.dischargeAt g.storages deficit
    let deficit1 := max 0 (deficit - discharged.2)
    let afterFlex :=
      if 0 < deficit1 then
        let r := SourceDispatcher.dispatchAt g.flexibles deficit1
        (r.1, max 0 (deficit1 - r.2))
      else
        (SourceDispatcher.shutDownAll g.flexibles, deficit1)
    let imported :=
      match g.crossBorder with
      | some t =>
          let r := t.importAt afterFlex.2
          (some r.1, r.2)
      | none => (none, 0)
    (⟨afterFlex.1, discharged.1, imported.1⟩,
      max 0 (afterFlex.2 - imported.2))

/-- One per-step snapshot collected by `ScenarioRun.sweep` plus the
shortage value appended by `Scenario.run`.  The Python sink appends the
sources in the order baseloads, intermittents, flexibles into one
name-keyed dict; the three segments are kept apart here so their
concatenation is the Python append order. -/
structure StepRecord where
  baseloadGeneration : List (String × ℚ)
  intermittentGeneration : List (String × ℚ)
  flexibleGeneration : List (String × ℚ)
  storageOutput : List (String × ℚ)
  netImport : Option ℚ
  shortage : ℚ
deriving DecidableEq

/-- Embedding of `ScenarioRun`: the list of per-step records, in step order. -/
structure ScenarioRun where
  records : List StepRecord
deriving DecidableEq

/-- Embedding of `Scenario`: the configuration plus the mutable resources it owns.
The flexible sources are `FlexibleSource` values, so a scenario may
drive plain dispatchable sources and thermal plants alike, as the
Python `Scenario` (`flexible_sources: list[DispatchableSource]`) does. -/
structure Scenario where
  load : List ℚ
  baseloads : List PowerSource
  flexibles : List FlexibleSource
  intermittents : List (PowerSource × List ℚ)
  storages : List EnergyStorage
  crossBorder : Option CrossBorderTerminal
  gridLosses : ℚ
deriving DecidableEq

/-- Embedding of `ScenarioRun.sweep` (plus the shortage append in `Scenario.run`):
snapshot every resource's current net generation / output / net import. -/
def Scenario.sweep (sc : Scenario) (shortage : ℚ) : StepRecord :=
  { baseloadGeneration :=
      sc.baseloads.map (fun s => (s.name, s.netGeneration))
    intermittentGeneration :=
      sc.intermittents.map (fun p => (p.1.name, p.1.netGeneration))
    flexibleGeneration :=
      sc.flexibles.map (fun s => (s.name, s.netGeneration))
    storageOutput :=
      sc.storages.map (fun s => (s.name, s.currentOutput))
    netImport := sc.crossBorder.map CrossBorderTerminal.netImport
    shortage := shortage }

/-- The body of the `Scenario.run` loop at step index `i` with load
entry `l`: push this step's capacity factors into the intermittent
sources, compute gross consumption and inflexible generation, run the
balancing step, and return the updated scenario together with the
recorded shortage value. -/
def Scenario.stepAt (sc : Scenario) (i : ℕ) (l : ℚ) : Scenario × ℚ :=
  let gross := l * (1 + sc.gridLosses)
  let intermittents :=
    sc.intermittents.map
      (fun p => ({ p.1 with utilisation := p.2.getD i 0 }, p.2))
  let inflexible :=
    (sc.baseloads.map PowerSource.netGeneration).sum
      + (intermittents.map (fun p => p.1.netGeneration)).sum
  let stepped :=
    scenarioStep inflexible gross ⟨sc.flexibles, sc.storages, sc.crossBorder⟩
  ({ sc with intermittents := intermittents,
             flexibles := stepped.1.flexibles,
             storages := stepped.1.storages,
             crossBorder := stepped.1.crossBorder }, stepped.2)

/-- The loop of `Scenario.run`, peeled over the remaining load entries;
`i` is the index of the current step into the capacity-factor series. -/
def Scenario.runFrom (sc : Scenario) (i : ℕ) :
    List ℚ → Scenario × List StepRecord
  | [] => (sc, [])
  | l :: rest =>
      let s := sc.stepAt i l
      let afterRest := s.1.runFrom (i + 1) rest
      (afterRest.1, s.1.sweep s.2 :: afterRest.2)

/-- Embedding of `Scenario.run`: iterate over the whole load series, returning both
the scenario with its resources in their final (not reset) states and
the collected statistics. -/
def Scenario.run (sc : Scenario) : Scenario × ScenarioRun :=
  let r := sc.runFrom 0 sc.load
  (r.1, ⟨r.2⟩)

/-- Embedding of `ScenarioRun.compute_generation`: total recorded generation of the
sources with the given name over the run. -/
def ScenarioRun.computeGeneration (r : ScenarioRun) (sourceName : String) :
    ℚ :=
  (r.records.map (fun rec =>
    (((rec.baseloadGeneration ++ rec.intermittentGeneration
        ++ rec.flexibleGeneration).filter
          (fun p => p.1 = sourceName)).map Prod.snd).sum)).sum

/-- The per-step shortage values of a run, in step order. -/
def ScenarioRun.shortages (r : ScenarioRun) : List ℚ :=
  r.records.map StepRecord.shortage

/-- Net generation of the inflexible (baseload + intermittent) sources
recorded at one step. -/
def StepRecord.inflexibleGeneration (r : StepRecord) : ℚ :=
  (r.baseloadGeneration.map Prod.snd).sum
    + (r.intermittentGeneration.map Prod.snd).sum

/-- Net generation of the flexible sources recorded at one step. -/
def StepRecord.flexibleGenerationSum (r : StepRecord) : ℚ :=
  (r.flexibleGeneration.map Prod.snd).sum

/-- Aggregate storage discharging at one step: the positive parts of the
recorded storage outputs (cf. `compute_total_discharging`). -/
def StepRecord.discharging (r : StepRecord) : ℚ :=
  (r.storageOutput.map (fun p => max p.2 0)).sum

/-- Aggregate storage charging at one step: the negated negative parts
of the recorded storage outputs (cf. `compute_total_charging`). -/
def StepRecord.charging (r : StepRecord) : ℚ :=
  (r.storageOutput.map (fun p => -(min p.2 0))).sum

/-- Cross-border import at one step: the positive part of the recorded
net import (cf. `compute_total_import`). -/
def StepRecord.importPower (r : StepRecord) : ℚ :=
  match r.netImport with
  | some v => max v 0
  | none => 0

/-- Cross-border export at one step: the negated negative part of the
recorded net import (cf. `compute_total_export`). -/
def StepRecord.exportPower (r : StepRecord) : ℚ :=
  match r.netImport with
  | some v => -(min v 0)
  | none => 0

/-- The step's shortage: the positive part of the recorded shortage
value (cf. `compute_total_shortage`). -/
def StepRecord.shortagePart (r : StepRecord) : ℚ :=
  max r.shortage 0

/-- The step's dump: the negated negative part of the recorded shortage
value (cf. `compute_total_dump`). -/
def StepRecord.dumpPart (r : StepRecord) : ℚ :=
  -(min r.shortage 0)

/-- The per-step energy-balance equation exactly as claimed in the spec:
inflexible + flexible + discharging + import on the left, gross
consumption + charging + export + shortage − dump on the right. -/
def StepRecord.claimedBalance (gross : ℚ) (r : StepRecord) : Prop :=
  r.inflexibleGeneration + r.flexibleGenerationSum + r.discharging
      + r.importPower
    = gross + r.charging + r.exportPower + r.shortagePart - r.dumpPart

/-- The per-step energy balance with shortage and dump interchanged
relative to the claimed form, as an exact equality.  It holds whenever
the flexible sources produce no more than the residual deficit offered
to them — in particular whenever every flexible is a plain dispatchable
source. -/
def StepRecord.actualBalance (gross : ℚ) (r : StepRecord) : Prop :=
  r.inflexibleGeneration + r.flexibleGenerationSum + r.discharging
      + r.importPower
    = gross + r.charging + r.exportPower + r.dumpPart - r.shortagePart

/-- The direction of the corrected balance that holds for every scenario:
supply may exceed the accounted demand side by the flexible
overgeneration a thermal plant's minimum-load hold or startup ramp
forces, which the code books nowhere (neither as dump nor shortage). -/
def StepRecord.balanceLower (gross : ℚ) (r : StepRecord) : Prop :=
  gross + r.charging + r.exportPower + r.dumpPart - r.shortagePart
    ≤ r.inflexibleGeneration + r.flexibleGenerationSum + r.discharging
      + r.importPower

/-- The 3-step single-baseload scenario of the end-to-end spec example:
one 1000 MW baseload source at utilisation 1 with no self-consumption,
no flexible or intermittent sources, no storage, no cross-border
terminal, zero grid losses, load `[500, 1000, 1500]`. -/
def baseloadScenario : Scenario :=
  { load := [500, 1000, 1500]
    baseloads := [⟨"baseload", 1000, 0, 1⟩]
    flexibles := []
    intermittents := []
    storages := []
    crossBorder := none
    gridLosses := 0 }

/-- A 2-step scenario with one thermal flexible source (200 MW,
`min_load = 3/4`, `min_uptime = 5`, instant startup), no inflexible
sources, no storage, no cross-border terminal, zero grid losses, and
load `[200, 10]`: the second step's minimum-load hold makes the plant
generate 150 MW against a residual deficit of 10 MW. -/
def thermalScenario : Scenario :=
  { load := [200, 10]
    baseloads := []
    flexibles := [FlexibleSource.thermal (mkThermal "gas" 200 0 (3/4) 0 5 0)]
    intermittents := []
    storages := []
    crossBorder := none
    gridLosses := 0 }

/-- The stored-energy invariant of `EnergyStorage`: the current energy
lies between 0 and the maximum storage capacity. -/
def EnergyStorage.energyInvariant (s : EnergyStorage) : Prop :=
  0 ≤ s.currentEnergy ∧ s.currentEnergy ≤ s.maxStorage

instance (s : EnergyStorage) : Decidable s.energyInvariant := by
  unfold EnergyStorage.energyInvariant; infer_instance

/-- A charge or discharge request against a storage unit. -/
inductive StorageOp where
  | charge (power : ℚ)
  | discharge (power : ℚ)
deriving DecidableEq

/-- The power argument of a storage operation. -/
def StorageOp.power : StorageOp → ℚ
  | StorageOp.charge p => p
  | StorageOp.discharge p => p

/-- Apply one charge/discharge request to a storage unit. -/
def EnergyStorage.applyOp (s : EnergyStorage) : StorageOp → EnergyStorage
  | StorageOp.charge p => (s.chargeAt p).1
  | StorageOp.discharge p => (s.dischargeAt p).1

/-- Apply a sequence of charge/discharge requests, left to right. -/
def EnergyStorage.applyOps (s : EnergyStorage) : List StorageOp → EnergyStorage
  | [] => s
  | op :: ops => (s.applyOp op).applyOps ops

/-- Validity of the resources a `Scenario` drives: flexible sources have
valid construction parameters, storage units have valid parameters and a
stored energy within bounds, and the cross-border terminal, when
present, has a non-negative capacity. -/
def Scenario.valid (sc : Scenario) : Prop :=
  (∀ f ∈ sc.flexibles, f.validParams) ∧
    (∀ s ∈ sc.storages, s.validParams ∧ s.energyInvariant) ∧
    (∀ t, sc.crossBorder = some t → 0 ≤ t.capacity)

/-- A 2-step scenario whose storage ends the first run half charged:
one 100 MW baseload source, one 50 MW / 50 MWh lossless battery, no
flexibles, no cross-border, load `[50, 100]`, zero grid losses. -/
def persistenceScenario : Scenario :=
  { load := [50, 100]
    baseloads := [⟨"nuclear", 100, 0, 1⟩]
    flexibles := []
    intermittents := []
    storages := [⟨"battery", 50, 50, 1, 0, 0⟩]
    crossBorder := none
    gridLosses := 0 }

/-- Claim C4 counterexample: a plant constructed with `min_downtime = 5`
starts in `ShutDown(5)`; calling `shut_down()` leaves it in `ShutDown(6)`,
not `ShutDown(1)` as the claim states. -/
theorem C4_shutdown_counterexample :
    ((mkThermal "coal" 100 0 0 5 0 0).shutDown).state
        = PlantState.shutDown 6 ∧
      ((mkThermal "coal" 100 0 0 5 0 0).shutDown).state
        ≠ PlantState.shutDown 1 := by
  constructor <;> simp [mkThermal, ThermalPowerPlant.shutDown]

/-- Claim C4 (amended): `shut_down()` always forces utilisation to 0;
from `StartingUp` or `Running` it moves the plant to `ShutDown` with
downtime counter 1, while from `ShutDown(d)` it increments the downtime
counter to `d + 1`. -/
theorem C4_shutdown_behaviour (t : ThermalPowerPlant) :
    t.shutDown.utilisation = 0 ∧
      (∀ ph, t.state = PlantState.startingUp ph →
        t.shutDown.state = PlantState.shutDown 1) ∧
      (∀ u, t.state = PlantState.running u →
        t.shutDown.state = PlantState.shutDown 1) ∧
      (∀ d, t.state = PlantState.shutDown d →
        t.shutDown.state = PlantState.shutDown (d + 1)) := by
  cases h : t.state <;> simp [ThermalPowerPlant.shutDown, h]

/-- Claim C4 witness: the amended behaviour evaluated on a concrete
running plant and a concrete shut-down plant. -/
theorem C4_shutdown_behaviour_witness :
    ({ name := "coal", nominal := 100, selfConsumption := 0,
       utilisation := 1/2, minLoad := 0, minDowntime := 0, minUptime := 0,
       startupTime := 0, state := PlantState.running 3 } :
        ThermalPowerPlant).shutDown.state = PlantState.shutDown 1 ∧
      ((mkThermal "coal" 100 0 0 5 0 0).shutDown).state
        = PlantState.shutDown 6 :=
  ⟨(C4_shutdown_behaviour _).2.2.1 3 rfl,
    (C4_shutdown_behaviour (mkThermal "coal" 100 0 0 5 0 0)).2.2.2 5 rfl⟩

/-- Claim C5: the code violates its own invariant.  A thermal plant with
`min_load = 9/10` and `self_consumption = 1/5` (both valid construction
parameters) committed to starting up reaches utilisation
`min_load / (1 - self_consumption) = 9/8 > 1` on the first ramp step,
the very value the Python code then asserts to be at most 1. -/
theorem C5_ramp_utilisation_exceeds_one :
    (ThermalPowerPlant.init "coal" 100 (1/5) (9/10) 0 0 1).isSome ∧
      (((mkThermal "coal" 100 (1/5) (9/10) 0 0 1).dispatchAt 90).1.dispatchAt
          0).1.utilisation = 9/8 ∧
      (1 : ℚ) < 9/8 := by
  refine ⟨?_, ?_, by norm_num⟩
  · simp only [ThermalPowerPlant.init]
    rw [if_pos]
    · simp
    · refine ⟨by decide, by norm_num, by norm_num, by norm_num, by norm_num,
        by norm_num⟩
  · norm_num [mkThermal, ThermalPowerPlant.dispatchAt]

/-- Claim C6 counterexample: `CrossBorderTerminal.__init__` performs no
validation, so a terminal with capacity `-5` is constructed and holds
the out-of-domain capacity. -/
theorem C6_no_validation_counterexample :
    (CrossBorderTerminal.init (-5)).capacity = -5 ∧
      (CrossBorderTerminal.init (-5)).capacity < 0 := by
  constructor <;> norm_num [CrossBorderTerminal.init]

/-- Claim C6 (amended): constructing a `CrossBorderTerminal` never
fails: any capacity, negative ones included, is stored unchecked and the
net import starts at 0. -/
theorem C6_construction_unchecked (capacity : ℚ) :
    (CrossBorderTerminal.init capacity).capacity = capacity ∧
      (CrossBorderTerminal.init capacity).netImport = 0 :=
  ⟨rfl, rfl⟩

/-- Claim C7 counterexample: on a storage holding 60 MWh (reachable by a
single 60 MW charge from construction) with efficiency 1, charging at 80
and immediately discharging at 80 leaves 20 MWh, not the prior 60 MWh:
the charge is capped by the 40 MWh of remaining capacity while the
discharge draws on the pre-existing energy. -/
theorem C7_roundtrip_counterexample :
    ((((⟨"battery", 1000, 100, 1, 0, 0⟩ : EnergyStorage).chargeAt 60).1.chargeAt
        80).1.dischargeAt 80).1.currentEnergy = 20 ∧
      ((⟨"battery", 1000, 100, 1, 0, 0⟩ : EnergyStorage).chargeAt
        60).1.currentEnergy = 60 ∧
      (20 : ℚ) ≠ 60 := by
  norm_num [EnergyStorage.chargeAt, EnergyStorage.dischargeAt,
    EnergyStorage.remainingCapacity]

/-- Claim C7 (amended): for a storage holding no energy before the
charge (for instance freshly constructed): with efficiency 1 the
charge/discharge round trip of the same `p ≥ 0` restores the stored
energy exactly, and for any efficiency the discharge recovers at most
`efficiency ×` the actually charged power. -/
theorem C7_roundtrip (s : EnergyStorage) (p : ℚ) (hp : 0 ≤ p)
    (hempty : s.currentEnergy = 0) :
    (s.efficiency = 1 →
      ((s.chargeAt p).1.dischargeAt p).1.currentEnergy = s.currentEnergy) ∧
      ((s.chargeAt p).1.dischargeAt p).2 ≤ s.efficiency * (s.chargeAt p).2 := by
  have hc1 : min p (min s.nominal (s.maxStorage - s.currentEnergy)) ≤ p :=
    min_le_left _ _
  have hc2 : min p (min s.nominal (s.maxStorage - s.currentEnergy))
      ≤ s.nominal :=
    le_trans (min_le_right _ _) (min_le_left _ _)
  constructor
  · intro h1
    simp only [EnergyStorage.chargeAt, EnergyStorage.dischargeAt,
      EnergyStorage.remainingCapacity, h1, one_mul, hempty, zero_add]
    rw [hempty] at hc1 hc2
    rw [min_eq_left hc2, min_eq_right hc1, sub_self]
  · simp only [EnergyStorage.chargeAt, EnergyStorage.dischargeAt,
      EnergyStorage.remainingCapacity, hempty, zero_add]
    exact le_trans (min_le_right _ _) (min_le_left _ _)

/-- Claim C7 witness: the amended round trip evaluated on a freshly
constructed lossless 10 MW / 100 MWh battery at `p = 5`. -/
theorem C7_roundtrip_witness :
    (((⟨"battery", 10, 100, 1, 0, 0⟩ : EnergyStorage).chargeAt
        5).1.dischargeAt 5).1.currentEnergy
      = (⟨"battery", 10, 100, 1, 0, 0⟩ : EnergyStorage).currentEnergy ∧
      (((⟨"battery", 10, 100, 1, 0, 0⟩ : EnergyStorage).chargeAt
          5).1.dischargeAt 5).2
        ≤ (⟨"battery", 10, 100, 1, 0, 0⟩ : EnergyStorage).efficiency
          * ((⟨"battery", 10, 100, 1, 0, 0⟩ : EnergyStorage).chargeAt 5).2 :=
  ⟨(C7_roundtrip ⟨"battery", 10, 100, 1, 0, 0⟩ 5 (by norm_num) rfl).1 rfl,
    (C7_roundtrip ⟨"battery", 10, 100, 1, 0, 0⟩ 5 (by norm_num) rfl).2⟩

lemma chargeAt_invariant (s : EnergyStorage) (p : ℚ) (hp : 0 ≤ p)
    (hnom : 0 < s.nominal) (heff0 : 0 < s.efficiency)
    (heff1 : s.efficiency ≤ 1) (hinv : s.energyInvariant) :
    (s.chargeAt p).1.energyInvariant := by
  obtain ⟨h0, h1⟩ := hinv
  have hrem : 0 ≤ s.maxStorage - s.currentEnergy := by linarith
  have hc0 : 0 ≤ min p (min s.nominal (s.maxStorage - s.currentEnergy)) :=
    le_min hp (le_min hnom.le hrem)
  have hcrem : min p (min s.nominal (s.maxStorage - s.currentEnergy))
      ≤ s.maxStorage - s.currentEnergy :=
    le_trans (min_le_right _ _) (min_le_right _ _)
  have heffc : s.efficiency * min p (min s.nominal (s.maxStorage - s.currentEnergy))
      ≤ min p (min s.nominal (s.maxStorage - s.currentEnergy)) :=
    mul_le_of_le_one_left hc0 heff1
  constructor
  · simp only [EnergyStorage.chargeAt, EnergyStorage.remainingCapacity]
    have := mul_nonneg heff0.le hc0
    linarith
  · simp only [EnergyStorage.chargeAt, EnergyStorage.remainingCapacity]
    linarith

lemma dischargeAt_invariant (s : EnergyStorage) (p : ℚ) (hp : 0 ≤ p)
    (hnom : 0 < s.nominal) (hinv : s.energyInvariant) :
    (s.dischargeAt p).1.energyInvariant := by
  obtain ⟨h0, h1⟩ := hinv
  have hd0 : 0 ≤ min p (min s.currentEnergy s.nominal) :=
    le_min hp (le_min h0 hnom.le)
  have hde : min p (min s.currentEnergy s.nominal) ≤ s.currentEnergy :=
    le_trans (min_le_right _ _) (min_le_left _ _)
  constructor
  · simp only [EnergyStorage.dischargeAt]
    linarith
  · simp only [EnergyStorage.dischargeAt]
    linarith

lemma applyOps_invariant (ops : List StorageOp) :
    ∀ s : EnergyStorage, 0 < s.nominal → 0 < s.efficiency →
      s.efficiency ≤ 1 → s.energyInvariant → (∀ op ∈ ops, 0 ≤ op.power) →
      (s.applyOps ops).energyInvariant := by
  induction ops with
  | nil => intro s _ _ _ hinv _; exact hinv
  | cons op ops ih =>
      intro s hnom heff0 heff1 hinv hops
      have hop : 0 ≤ op.power := hops op (List.mem_cons_self op ops)
      have hrest : ∀ o ∈ ops, 0 ≤ o.power :=
        fun o ho => hops o (List.mem_cons_of_mem op ho)
      cases op with
      | charge p =>
          exact ih _ hnom heff0 heff1
            (chargeAt_invariant s p hop hnom heff0 heff1 hinv) hrest
      | discharge p =>
          exact ih _ hnom heff0 heff1
            (dischargeAt_invariant s p hop hnom hinv) hrest

/-- Claim C9: a storage unit constructed with valid parameters satisfies
`0 ≤ current_energy ≤ max_storage`, and the invariant is preserved by
every interleaving of `charge_at`/`discharge_at` requests with
non-negative powers. -/
theorem C9_storage_invariant (name : String)
    (nominal maxStorage efficiency : ℚ) (s : EnergyStorage)
    (hinit : EnergyStorage.init name nominal maxStorage efficiency = some s)
    (ops : List StorageOp) (hops : ∀ op ∈ ops, 0 ≤ op.power) :
    s.energyInvariant ∧ (s.applyOps ops).energyInvariant := by
  unfold EnergyStorage.init at hinit
  split at hinit
  case isFalse => exact absurd hinit (by simp)
  case isTrue h =>
    obtain ⟨hname, hnom, hmax, heff0, heff1⟩ := h
    have hs : s = ⟨name, nominal, maxStorage, efficiency, 0, 0⟩ :=
      (Option.some.injEq _ _ ▸ hinit).symm
    subst hs
    have hinv : EnergyStorage.energyInvariant
        ⟨name, nominal, maxStorage, efficiency, 0, 0⟩ := ⟨le_refl 0, hmax.le⟩
    exact ⟨hinv, applyOps_invariant ops _ hnom heff0 heff1 hinv hops⟩

/-- Claim C9 witness: the invariant evaluated on a concrete battery and
a concrete charge/discharge interleaving. -/
theorem C9_storage_invariant_witness :
    (⟨"battery", 10, 100, 1, 0, 0⟩ : EnergyStorage).energyInvariant ∧
      ((⟨"battery", 10, 100, 1, 0, 0⟩ : EnergyStorage).applyOps
        [StorageOp.charge 7, StorageOp.discharge 3,
          StorageOp.charge 200]).energyInvariant :=
  C9_storage_invariant "battery" 10 100 1 _
    (by unfold EnergyStorage.init
        rw [if_pos ⟨by decide, by norm_num, by norm_num, by norm_num,
          by norm_num⟩])
    _
    (by intro op hop
        rcases hop with _ | ⟨_, _ | ⟨_, _ | ⟨_, h⟩⟩⟩
        · norm_num [StorageOp.power]
        · norm_num [StorageOp.power]
        · norm_num [StorageOp.power]
        · cases h)

lemma dispatchAt_snd (s : PowerSource) (p : ℚ) :
    (s.dispatchAt p).2 = min (p / s.maxNetPower) 1 * s.maxNetPower := by
  simp only [PowerSource.dispatchAt, PowerSource.netGeneration,
    PowerSource.generation, PowerSource.maxNetPower]
  ring

lemma dispatchAt_snd_of_pos (s : PowerSource) (p : ℚ)
    (h : 0 < s.maxNetPower) :
    (s.dispatchAt p).2 = min p s.maxNetPower := by
  rw [dispatchAt_snd, min_mul_of_nonneg _ _ h.le,
    div_mul_cancel₀ _ h.ne', one_mul]

lemma flexDispatchAt_netGen (u : FlexibleSource) (p : ℚ) :
    (u.dispatchAt p).2 = (u.dispatchAt p).1.netGeneration := by
  cases u <;> rfl

lemma plain_dispatchAt_snd_of_pos (s : PowerSource) (p : ℚ)
    (h : 0 < s.maxNetPower) :
    ((FlexibleSource.plain s).dispatchAt p).2 = min p s.maxNetPower :=
  dispatchAt_snd_of_pos s p h

lemma dispatchSources_sum (us : List FlexibleSource) :
    ∀ p acc : ℚ,
      (dispatchSources us p acc).2
        = acc + ((dispatchSources us p acc).1.map
            FlexibleSource.netGeneration).sum := by
  induction us with
  | nil => intro p acc; simp [dispatchSources]
  | cons u rest ih =>
      intro p acc
      simp only [dispatchSources, List.map_cons, List.sum_cons]
      rw [ih p (acc + (u.dispatchAt (max 0 (p - acc))).2)]
      rw [flexDispatchAt_netGen]
      ring

lemma maxNetPower_sum_nonneg (us : List FlexibleSource)
    (h : ∀ u ∈ us, 0 < u.maxNetPower) :
    0 ≤ (us.map FlexibleSource.maxNetPower).sum := by
  induction us with
  | nil => simp
  | cons u rest ih =>
      simp only [List.map_cons, List.sum_cons]
      have h1 := h u (List.mem_cons_self u rest)
      have h2 := ih (fun v hv => h v (List.mem_cons_of_mem u hv))
      linarith

lemma dispatchSources_total (us : List FlexibleSource) :
    ∀ p acc : ℚ,
      (∀ u ∈ us, u.isPlain ∧ 0 < u.maxNetPower) → 0 ≤ acc → acc ≤ p →
      (dispatchSources us p acc).2
        = min p (acc + (us.map FlexibleSource.maxNetPower).sum) := by
  induction us with
  | nil =>
      intro p acc _ _ hacc
      simp only [dispatchSources, List.map_nil, List.sum_nil, add_zero]
      exact (min_eq_right hacc).symm
  | cons u rest ih =>
      intro p acc hpos hacc0 haccp
      obtain ⟨⟨s, rfl⟩, hu⟩ := hpos u (List.mem_cons_self u rest)
      have hrest : ∀ v ∈ rest, v.isPlain ∧ 0 < v.maxNetPower :=
        fun v hv => hpos v (List.mem_cons_of_mem _ hv)
      have hq : max 0 (p - acc) = p - acc := max_eq_right (by linarith)
      simp only [dispatchSources, List.map_cons, List.sum_cons]
      rw [hq, plain_dispatchAt_snd_of_pos s _ hu]
      have hmnp : (FlexibleSource.plain s).maxNetPower = s.maxNetPower := rfl
      rw [hmnp]
      have hacc1 : acc + min (p - acc) s.maxNetPower
          = min p (acc + s.maxNetPower) := by
        rcases le_total (p - acc) s.maxNetPower with hle | hle
        · rw [min_eq_left hle, min_eq_left (by linarith)]; ring
        · rw [min_eq_right hle, min_eq_right (by linarith)]
      have h0 : 0 ≤ acc + min (p - acc) s.maxNetPower :=
        add_nonneg hacc0 (le_min (by linarith) hu.le)
      have hp1 : acc + min (p - acc) s.maxNetPower ≤ p := by
        rw [hacc1]; exact min_le_left _ _
      rw [ih p _ hrest h0 hp1, hacc1]
      have hs : 0 ≤ (rest.map FlexibleSource.maxNetPower).sum :=
        maxNetPower_sum_nonneg rest (fun v hv => (hrest v hv).2)
      rcases le_total (acc + s.maxNetPower) p with hle | hle
      · rw [min_eq_right hle]
        ring_nf
      · rw [min_eq_left hle, min_eq_left (by linarith),
          min_eq_left (by linarith)]

/-- Claim C8: merit-order dispatch over three plain dispatchable units
`[A, B, C]` with maximum net powers `cA, cB, cC`: a request above
`cA + cB + cC` returns exactly `cA + cB + cC`; a request
`0 ≤ total ≤ cA` returns `total`, sets A's utilisation to
`total / cA` (the full request) and leaves B and C at utilisation 0
(they are requested exactly 0); and the returned value is always the
sum of the units' net generations after the dispatch. -/
theorem C8_merit_order_dispatch (A B C : PowerSource) (total : ℚ)
    (hA : 0 < A.maxNetPower) (hB : 0 < B.maxNetPower)
    (hC : 0 < C.maxNetPower) (htot : 0 ≤ total) :
    (A.maxNetPower + B.maxNetPower + C.maxNetPower < total →
      (SourceDispatcher.dispatchAt [FlexibleSource.plain A,
          FlexibleSource.plain B, FlexibleSource.plain C] total).2
        = A.maxNetPower + B.maxNetPower + C.maxNetPower) ∧
      (total ≤ A.maxNetPower →
        (SourceDispatcher.dispatchAt [FlexibleSource.plain A,
            FlexibleSource.plain B, FlexibleSource.plain C] total).2
          = total ∧
        (SourceDispatcher.dispatchAt [FlexibleSource.plain A,
            FlexibleSource.plain B, FlexibleSource.plain C] total).1.map
            FlexibleSource.utilisation
          = [total / A.maxNetPower, 0, 0]) ∧
      (SourceDispatcher.dispatchAt [FlexibleSource.plain A,
          FlexibleSource.plain B, FlexibleSource.plain C] total).2
        = ((SourceDispatcher.dispatchAt [FlexibleSource.plain A,
            FlexibleSource.plain B, FlexibleSource.plain C] total).1.map
            FlexibleSource.netGeneration).sum := by
  have hpos : ∀ u ∈ [FlexibleSource.plain A, FlexibleSource.plain B,
      FlexibleSource.plain C], u.isPlain ∧ 0 < u.maxNetPower := by
    intro u hu
    rcases hu with _ | ⟨_, _ | ⟨_, _ | ⟨_, h⟩⟩⟩
    · exact ⟨⟨A, rfl⟩, hA⟩
    · exact ⟨⟨B, rfl⟩, hB⟩
    · exact ⟨⟨C, rfl⟩, hC⟩
    · cases h
  have htotal := dispatchSources_total [FlexibleSource.plain A,
    FlexibleSource.plain B, FlexibleSource.plain C] total 0 hpos
    (le_refl 0) htot
  simp only [List.map_cons, List.map_nil, List.sum_cons, List.sum_nil,
    FlexibleSource.maxNetPower, add_zero, zero_add] at htotal
  refine ⟨?_, ?_, ?_⟩
  · intro hbig
    rw [SourceDispatcher.dispatchAt, htotal,
      min_eq_right (show A.maxNetPower + (B.maxNetPower + C.maxNetPower)
        ≤ total by linarith)]
    ring
  · intro hsmall
    constructor
    · rw [SourceDispatcher.dispatchAt, htotal]
      exact min_eq_left (by linarith)
    · have hq1 : max 0 (total - 0) = total := by
        rw [sub_zero]; exact max_eq_right htot
      have hgA : (A.dispatchAt total).2 = total := by
        rw [dispatchAt_snd_of_pos A total hA]
        exact min_eq_left hsmall
      simp only [SourceDispatcher.dispatchAt, dispatchSources,
        FlexibleSource.dispatchAt, hq1, hgA, List.map_cons, List.map_nil]
      have huA : (A.dispatchAt total).1.utilisation
          = total / A.maxNetPower := by
        simp only [PowerSource.dispatchAt]
        exact min_eq_left ((div_le_one hA).mpr hsmall)
      have hq2 : max 0 (total - (0 + total)) = 0 := by
        rw [zero_add, sub_self]; exact max_eq_left (le_refl 0)
      rw [hq2]
      have hgB : (B.dispatchAt 0).2 = 0 := by
        rw [dispatchAt_snd_of_pos B 0 hB]
        exact min_eq_left hB.le
      have huB : (B.dispatchAt 0).1.utilisation = 0 := by
        simp only [PowerSource.dispatchAt, zero_div]
        exact min_eq_left zero_le_one
      rw [hgB]
      have hq3 : max 0 (total - (0 + total + 0)) = 0 := by
        rw [zero_add, add_zero, sub_self]; exact max_eq_left (le_refl 0)
      rw [hq3]
      have huC : (C.dispatchAt 0).1.utilisation = 0 := by
        simp only [PowerSource.dispatchAt, zero_div]
        exact min_eq_left zero_le_one
      simp only [FlexibleSource.utilisation]
      rw [huA, huB, huC]
  · have := dispatchSources_sum [FlexibleSource.plain A,
      FlexibleSource.plain B, FlexibleSource.plain C] total 0
    rw [SourceDispatcher.dispatchAt, this, zero_add]

/-- Claim C8 witness: three 10/20/30 MW units with no self-consumption,
evaluated at an over-capacity request of 100 MW and at an in-first-unit
request of 4 MW. -/
theorem C8_merit_order_dispatch_witness :
    (SourceDispatcher.dispatchAt
        [FlexibleSource.plain ⟨"a", 10, 0, 0⟩,
          FlexibleSource.plain ⟨"b", 20, 0, 0⟩,
          FlexibleSource.plain ⟨"c", 30, 0, 0⟩] 100).2 = 60 ∧
      (SourceDispatcher.dispatchAt
        [FlexibleSource.plain ⟨"a", 10, 0, 0⟩,
          FlexibleSource.plain ⟨"b", 20, 0, 0⟩,
          FlexibleSource.plain ⟨"c", 30, 0, 0⟩] 4).2 = 4 := by
  constructor
  · have h := (C8_merit_order_dispatch ⟨"a", 10, 0, 0⟩ ⟨"b", 20, 0, 0⟩
      ⟨"c", 30, 0, 0⟩ 100 (by norm_num [PowerSource.maxNetPower])
      (by norm_num [PowerSource.maxNetPower])
      (by norm_num [PowerSource.maxNetPower]) (by norm_num)).1
    rw [h (by norm_num [PowerSource.maxNetPower])]
    norm_num [PowerSource.maxNetPower]
  · have h := ((C8_merit_order_dispatch ⟨"a", 10, 0, 0⟩ ⟨"b", 20, 0, 0⟩
      ⟨"c", 30, 0, 0⟩ 4 (by norm_num [PowerSource.maxNetPower])
      (by norm_num [PowerSource.maxNetPower])
      (by norm_num [PowerSource.maxNetPower]) (by norm_num)).2.1
      (by norm_num [PowerSource.maxNetPower])).1
    exact h

lemma dispatchAt_params (t : ThermalPowerPlant) (p : ℚ) :
    (t.dispatchAt p).1.params = t.params := by
  unfold ThermalPowerPlant.dispatchAt ThermalPowerPlant.shutDown
    ThermalPowerPlant.params
  cases h : t.state <;> simp only <;> split_ifs <;> rfl

lemma dispatchAt_shutDown_low (t : ThermalPowerPlant) (p : ℚ) (d : ℕ)
    (hst : t.state = PlantState.shutDown d) (hut : t.utilisation = 0)
    (hp : p < t.minLoad * t.nominal) :
    t.dispatchAt p = ({ t with state := PlantState.shutDown (d + 1) }, 0) := by
  unfold ThermalPowerPlant.dispatchAt
  simp only [hst]
  rw [if_pos (Or.inl hp)]
  simp [ThermalPowerPlant.netGeneration, hut]

lemma dispatchAt_ramp_step (t : ThermalPowerPlant) (p : ℚ) (k : ℕ)
    (hst : t.state = PlantState.startingUp k) (hk : k ≠ t.startupTime)
    (hne : (1 : ℚ) - t.selfConsumption ≠ 0) :
    t.dispatchAt p
      = ({ t with state := PlantState.startingUp (k + 1), utilisation := (((k : ℚ) + 1) / (t.startupTime : ℚ) * t.minLoad / (1 - t.selfConsumption)) },
          ((k : ℚ) + 1) / (t.startupTime : ℚ) * t.minLoad * t.nominal) := by
  unfold ThermalPowerPlant.dispatchAt
  simp only [hst]
  rw [if_neg hk]
  refine Prod.ext rfl ?_
  simp only [ThermalPowerPlant.netGeneration]
  have key : ∀ A n c : ℚ, c ≠ 0 → A / c * n * c = A * n := by
    intro A n c hc; field_simp
  exact key _ _ _ hne

lemma dispatchAt_commit (t : ThermalPowerPlant) (p : ℚ) (d : ℕ)
    (hst : t.state = PlantState.shutDown d)
    (hp : t.minLoad * t.nominal ≤ p) (hd : t.minDowntime ≤ d)
    (hstart : 0 < t.startupTime) :
    t.dispatchAt p
      = ({ t with state := PlantState.startingUp 0 }, t.netGeneration) := by
  unfold ThermalPowerPlant.dispatchAt
  simp only [hst]
  rw [if_neg (by push_neg; exact ⟨hp, hd⟩), if_pos hstart]
  rfl

lemma dispatchAt_run_transition (t : ThermalPowerPlant) (p : ℚ)
    (hst : t.state = PlantState.startingUp t.startupTime)
    (hp : t.minLoad * t.nominal ≤ p) :
    (t.dispatchAt p).1.state = PlantState.running 1 ∧
      (t.dispatchAt p).1.utilisation = min (p / t.maxNetPower) 1 := by
  unfold ThermalPowerPlant.dispatchAt
  simp only [hst, eq_self_iff_true, if_true]
  rw [if_neg (not_lt.mpr hp)]
  exact ⟨rfl, rfl⟩

lemma dispatchSeq_shutDown_low (ps : List ℚ) :
    ∀ (t : ThermalPowerPlant) (d : ℕ), t.state = PlantState.shutDown d →
      t.utilisation = 0 → (∀ q ∈ ps, q < t.minLoad * t.nominal) →
      (t.dispatchSeq ps).1
          = { t with state := PlantState.shutDown (d + ps.length) } ∧
        (t.dispatchSeq ps).2 = ps.map (fun _ => 0) := by
  induction ps with
  | nil =>
      intro t d hst _ _
      refine ⟨?_, rfl⟩
      simp only [ThermalPowerPlant.dispatchSeq, List.length_nil,
        Nat.add_zero, ← hst]
  | cons p ps ih =>
      intro t d hst hut hlow
      have hp : p < t.minLoad * t.nominal :=
        hlow p (List.mem_cons_self p ps)
      have hstep := dispatchAt_shutDown_low t p d hst hut hp
      have ihh := ih { t with state := PlantState.shutDown (d + 1) }
        (d + 1) rfl hut (fun q hq => hlow q (List.mem_cons_of_mem p hq))
      constructor
      · show ((t.dispatchAt p).1.dispatchSeq ps).1 = _
        rw [hstep]
        rw [ihh.1]
        have hlen : d + 1 + ps.length = d + (ps.length + 1) := by omega
        simp [hlen]
      · show (t.dispatchAt p).2 :: ((t.dispatchAt p).1.dispatchSeq ps).2 = _
        rw [hstep]
        simp only [ihh.2, List.map_cons]

lemma dispatchSeq_ramp (ps : List ℚ) :
    ∀ (t : ThermalPowerPlant) (k : ℕ), t.state = PlantState.startingUp k →
      k + ps.length ≤ t.startupTime → t.selfConsumption < 1 →
      (t.dispatchSeq ps).1.state = PlantState.startingUp (k + ps.length) ∧
        (t.dispatchSeq ps).1.minLoad = t.minLoad ∧
        (t.dispatchSeq ps).1.nominal = t.nominal ∧
        (t.dispatchSeq ps).1.selfConsumption = t.selfConsumption ∧
        (t.dispatchSeq ps).1.startupTime = t.startupTime ∧
        (t.dispatchSeq ps).2 = (List.range ps.length).map
          (fun j => ((k + j + 1 : ℕ) : ℚ) / (t.startupTime : ℚ)
            * t.minLoad * t.nominal) := by
  induction ps with
  | nil =>
      intro t k hst _ _
      exact ⟨by simpa using hst, rfl, rfl, rfl, rfl, rfl⟩
  | cons p ps ih =>
      intro t k hst hlen hsc
      have hk : k ≠ t.startupTime := by
        simp only [List.length_cons] at hlen; omega
      have hne : (1 : ℚ) - t.selfConsumption ≠ 0 := by
        intro h; apply absurd hsc; simp only [not_lt]; linarith
      have hstep := dispatchAt_ramp_step t p k hst hk hne
      have ihh := ih { t with state := PlantState.startingUp (k + 1), utilisation := (((k : ℚ) + 1) / (t.startupTime : ℚ) * t.minLoad / (1 - t.selfConsumption)) }
        (k + 1) rfl
        (by simp only [List.length_cons] at hlen
            show k + 1 + ps.length ≤ t.startupTime
            omega)
        hsc
      refine ⟨?_, ?_, ?_, ?_, ?_, ?_⟩
      · show ((t.dispatchAt p).1.dispatchSeq ps).1.state = _
        rw [hstep]
        rw [ihh.1]
        have hlen2 : k + 1 + ps.length = k + (ps.length + 1) := by omega
        simp [hlen2]
      · show ((t.dispatchAt p).1.dispatchSeq ps).1.minLoad = _
        rw [hstep]; exact ihh.2.1
      · show ((t.dispatchAt p).1.dispatchSeq ps).1.nominal = _
        rw [hstep]; exact ihh.2.2.1
      · show ((t.dispatchAt p).1.dispatchSeq ps).1.selfConsumption = _
        rw [hstep]; exact ihh.2.2.2.1
      · show ((t.dispatchAt p).1.dispatchSeq ps).1.startupTime = _
        rw [hstep]; exact ihh.2.2.2.2.1
      · show (t.dispatchAt p).2 :: ((t.dispatchAt p).1.dispatchSeq ps).2 = _
        rw [hstep]
        simp only [ihh.2.2.2.2.2, List.length_cons,
          List.range_succ_eq_map ps.length, List.map_cons, List.map_map]
        congr 1
        · push_cast; ring
        · apply List.map_congr_left
          intro j _
          have hj : k + 1 + j + 1 = k + Nat.succ j + 1 := by omega
          simp only [Function.comp_apply, hj]

/-- Claim C3: a thermal plant constructed cold with `startup_time > 0`
returns 0 net generation for any sequence of requests below
`min_load × nominal`; the first at-or-above-threshold request commits it
to starting up (still producing 0 that step); over the following
`startup_time` steps its output ramps linearly, the `j`-th ramp step
producing `(j+1)/startup_time × min_load × nominal` regardless of the
requested values, so net generation reaches `min_load × nominal` exactly
`startup_time` steps after the commit; and the next at-or-above-threshold
request is served as an ordinary dispatch, with the plant running and
utilisation `min(power / max_net_power, 1)`. -/
theorem C3_thermal_startup (name : String)
    (nominal selfConsumption minLoad : ℚ)
    (minDowntime minUptime startupTime : ℕ)
    (hsc : selfConsumption < 1) (hstart : 0 < startupTime)
    (lows : List ℚ) (hlow : ∀ q ∈ lows, q < minLoad * nominal)
    (commit : ℚ) (hcommit : minLoad * nominal ≤ commit)
    (ramp : List ℚ) (hramplen : ramp.length = startupTime)
    (next : ℚ) (hnext : minLoad * nominal ≤ next)
    (plant : ThermalPowerPlant)
    (hplant : plant = mkThermal name nominal selfConsumption minLoad
      minDowntime minUptime startupTime) :
    let lowPhase := plant.dispatchSeq lows
    let committed := lowPhase.1.dispatchAt commit
    let rampPhase := committed.1.dispatchSeq ramp
    let final := rampPhase.1.dispatchAt next
    lowPhase.2 = lows.map (fun _ => 0) ∧
      committed.2 = 0 ∧
      committed.1.state = PlantState.startingUp 0 ∧
      rampPhase.2 = (List.range startupTime).map
        (fun j => ((j + 1 : ℕ) : ℚ) / (startupTime : ℚ)
          * minLoad * nominal) ∧
      rampPhase.2.getLast? = some (minLoad * nominal) ∧
      final.1.state = PlantState.running 1 ∧
      final.1.utilisation
        = min (next / (nominal * (1 - selfConsumption))) 1 := by
  subst hplant
  intro lowPhase committed rampPhase final
  have hlows := dispatchSeq_shutDown_low lows
    (mkThermal name nominal selfConsumption minLoad
      minDowntime minUptime startupTime) minDowntime rfl rfl hlow
  have hL1 : lowPhase.1
      = { mkThermal name nominal selfConsumption minLoad
            minDowntime minUptime startupTime with
          state := PlantState.shutDown (minDowntime + lows.length) } :=
    hlows.1
  have hcommit1 := dispatchAt_commit lowPhase.1 commit
    (minDowntime + lows.length) (by rw [hL1]) (by rw [hL1]; exact hcommit)
    (by rw [hL1]; exact Nat.le_add_right _ _) (by rw [hL1]; exact hstart)
  have hcommitUt : committed.2 = 0 := by
    show (lowPhase.1.dispatchAt commit).2 = 0
    rw [hcommit1, hL1]
    simp only [ThermalPowerPlant.netGeneration]
    show (0 : ℚ) * nominal * (1 - selfConsumption) = 0
    rw [zero_mul, zero_mul]
  have hcommitState : committed.1.state = PlantState.startingUp 0 := by
    show (lowPhase.1.dispatchAt commit).1.state = _
    rw [hcommit1]
  have hcST : committed.1.startupTime = startupTime := by
    show (lowPhase.1.dispatchAt commit).1.startupTime = _
    rw [hcommit1, hL1]; rfl
  have hcML : committed.1.minLoad = minLoad := by
    show (lowPhase.1.dispatchAt commit).1.minLoad = _
    rw [hcommit1, hL1]; rfl
  have hcNom : committed.1.nominal = nominal := by
    show (lowPhase.1.dispatchAt commit).1.nominal = _
    rw [hcommit1, hL1]; rfl
  have hcSC : committed.1.selfConsumption = selfConsumption := by
    show (lowPhase.1.dispatchAt commit).1.selfConsumption = _
    rw [hcommit1, hL1]; rfl
  have hramp1 := dispatchSeq_ramp ramp committed.1 0 hcommitState
    (by rw [hcST]; omega) (by rw [hcSC]; exact hsc)
  have hrST : rampPhase.1.startupTime = startupTime :=
    hramp1.2.2.2.2.1.trans hcST
  have hrML : rampPhase.1.minLoad = minLoad := hramp1.2.1.trans hcML
  have hrNom : rampPhase.1.nominal = nominal := hramp1.2.2.1.trans hcNom
  have hrSC : rampPhase.1.selfConsumption = selfConsumption :=
    hramp1.2.2.2.1.trans hcSC
  have hrampOut : rampPhase.2 = (List.range startupTime).map
      (fun j => ((j + 1 : ℕ) : ℚ) / (startupTime : ℚ)
        * minLoad * nominal) := by
    show (committed.1.dispatchSeq ramp).2 = _
    rw [hramp1.2.2.2.2.2, hramplen]
    simp only [hcST, hcML, hcNom]
    apply List.map_congr_left
    intro j _
    norm_num
  have hrState : rampPhase.1.state
      = PlantState.startingUp rampPhase.1.startupTime := by
    show (committed.1.dispatchSeq ramp).1.state
      = PlantState.startingUp (committed.1.dispatchSeq ramp).1.startupTime
    rw [hramp1.1, hramp1.2.2.2.2.1, hcST]
    simp [hramplen]
  have hfinal := dispatchAt_run_transition rampPhase.1 next hrState
    (by rw [hrML, hrNom]; exact hnext)
  refine ⟨hlows.2, hcommitUt, hcommitState, hrampOut, ?_, hfinal.1, ?_⟩
  · rw [hrampOut]
    obtain ⟨m, hm⟩ : ∃ m, startupTime = m + 1 :=
      ⟨startupTime - 1, by omega⟩
    subst hm
    rw [List.range_succ m, List.map_append]
    simp only [List.map_cons, List.map_nil]
    rw [List.getLast?_concat]
    congr 1
    push_cast
    rw [div_self (by positivity : ((m : ℚ) + 1) ≠ 0), one_mul]
  · show (rampPhase.1.dispatchAt next).1.utilisation = _
    rw [hfinal.2]
    congr 1
    rw [ThermalPowerPlant.maxNetPower, hrNom, hrSC]

/-- Claim C3 witness: a 100 MW plant with `min_load = 1/2`,
`min_downtime = 2`, `startup_time = 2`, driven through two sub-threshold
requests, a committing request of 60 MW, two ramp steps, and an ordinary
request of 80 MW. -/
theorem C3_thermal_startup_witness :
    (let plant := mkThermal "coal" 100 0 (1/2) 2 0 2
     let lowPhase := plant.dispatchSeq [10, 20]
     let committed := lowPhase.1.dispatchAt 60
     let rampPhase := committed.1.dispatchSeq [0, 0]
     let final := rampPhase.1.dispatchAt 80
     lowPhase.2 = ([10, 20] : List ℚ).map (fun _ => 0) ∧
       committed.2 = 0 ∧
       committed.1.state = PlantState.startingUp 0 ∧
       rampPhase.2 = (List.range 2).map
         (fun j => ((j + 1 : ℕ) : ℚ) / (2 : ℚ) * (1/2) * 100) ∧
       rampPhase.2.getLast? = some ((1/2) * 100) ∧
       final.1.state = PlantState.running 1 ∧
       final.1.utilisation = min (80 / (100 * (1 - 0))) 1) :=
  C3_thermal_startup "coal" 100 0 (1/2) 2 0 2 (by norm_num) (by norm_num)
    [10, 20]
    (by intro q hq
        rcases hq with _ | ⟨_, _ | ⟨_, h⟩⟩
        · norm_num
        · norm_num
        · cases h)
    60 (by norm_num) [0, 0] (by norm_num) 80 (by norm_num)
    (mkThermal "coal" 100 0 (1/2) 2 0 2) rfl

lemma validParams_maxNetPower_pos (s : PowerSource) (h : s.validParams) :
    0 < s.maxNetPower := by
  have h1 := h.2.1
  have h2 := h.2.2.2
  exact mul_pos h1 (by linarith)

lemma thermal_shutDown_utilisation (t : ThermalPowerPlant) :
    t.shutDown.utilisation = 0 := by
  unfold ThermalPowerPlant.shutDown
  cases h : t.state <;> rfl

lemma flex_shutDown_netGen (u : FlexibleSource) :
    u.shutDown.netGeneration = 0 := by
  cases u with
  | plain s =>
      show s.shutDown.netGeneration = 0
      simp [PowerSource.shutDown, PowerSource.netGeneration,
        PowerSource.generation]
  | thermal t =>
      show t.shutDown.netGeneration = 0
      rw [ThermalPowerPlant.netGeneration, thermal_shutDown_utilisation,
        zero_mul, zero_mul]

lemma shutDownAll_netGen (fx : List FlexibleSource) :
    ((SourceDispatcher.shutDownAll fx).map FlexibleSource.netGeneration).sum
      = 0 := by
  induction fx with
  | nil => rfl
  | cons u rest ih =>
      simp only [SourceDispatcher.shutDownAll, List.map_cons,
        List.sum_cons] at ih ⊢
      rw [ih, flex_shutDown_netGen]
      norm_num

lemma thermal_shutDown_params (t : ThermalPowerPlant) :
    t.shutDown.params = t.params := by
  unfold ThermalPowerPlant.shutDown
  cases h : t.state <;> rfl

lemma params_eq_validParams (t1 t2 : ThermalPowerPlant)
    (h : t1.params = t2.params) (hv : t2.validParams) : t1.validParams := by
  have hn : t1.name = t2.name := congrArg (fun x => x.1) h
  have hnom : t1.nominal = t2.nominal := congrArg (fun x => x.2.1) h
  have hsc : t1.selfConsumption = t2.selfConsumption :=
    congrArg (fun x => x.2.2.1) h
  have hml : t1.minLoad = t2.minLoad := congrArg (fun x => x.2.2.2.1) h
  unfold ThermalPowerPlant.validParams at hv ⊢
  rw [hn, hnom, hsc, hml]
  exact hv

lemma flex_shutDown_validParams (u : FlexibleSource) (h : u.validParams) :
    u.shutDown.validParams := by
  cases u with
  | plain s => exact h
  | thermal t => exact params_eq_validParams _ _ (thermal_shutDown_params t) h

lemma flex_dispatchAt_validParams (u : FlexibleSource) (p : ℚ)
    (h : u.validParams) : (u.dispatchAt p).1.validParams := by
  cases u with
  | plain s => exact h
  | thermal t => exact params_eq_validParams _ _ (dispatchAt_params t p) h

lemma shutDownAll_valid (fx : List FlexibleSource)
    (h : ∀ f ∈ fx, f.validParams) :
    ∀ f ∈ SourceDispatcher.shutDownAll fx, f.validParams := by
  intro f hf
  obtain ⟨g, hg, rfl⟩ := List.mem_map.mp hf
  exact flex_shutDown_validParams g (h g hg)

lemma shutDownAll_plain (fx : List FlexibleSource)
    (h : ∀ f ∈ fx, f.isPlain) :
    ∀ f ∈ SourceDispatcher.shutDownAll fx, f.isPlain := by
  intro f hf
  obtain ⟨g, hg, rfl⟩ := List.mem_map.mp hf
  obtain ⟨s, rfl⟩ := h g hg
  exact ⟨s.shutDown, rfl⟩

lemma dispatchSources_valid (us : List FlexibleSource) :
    ∀ (p acc : ℚ), (∀ u ∈ us, u.validParams) →
      ∀ u ∈ (dispatchSources us p acc).1, u.validParams := by
  induction us with
  | nil => intro p acc _ u hu; cases hu
  | cons v rest ih =>
      intro p acc h u hu
      simp only [dispatchSources] at hu
      rcases List.mem_cons.mp hu with h1 | h1
      · subst h1
        exact flex_dispatchAt_validParams v _ (h v (List.mem_cons_self v rest))
      · exact ih p _ (fun w hw => h w (List.mem_cons_of_mem v hw)) u h1

lemma dispatchSources_plain (us : List FlexibleSource) :
    ∀ (p acc : ℚ), (∀ u ∈ us, u.isPlain) →
      ∀ u ∈ (dispatchSources us p acc).1, u.isPlain := by
  induction us with
  | nil => intro p acc _ u hu; cases hu
  | cons v rest ih =>
      intro p acc h u hu
      simp only [dispatchSources] at hu
      rcases List.mem_cons.mp hu with h1 | h1
      · obtain ⟨s, rfl⟩ := h v (List.mem_cons_self v rest)
        subst h1
        exact ⟨(s.dispatchAt (max 0 (p - acc))).1, rfl⟩
      · exact ih p _ (fun w hw => h w (List.mem_cons_of_mem v hw)) u h1

lemma chargeStorages_spec (us : List EnergyStorage) :
    ∀ p acc : ℚ,
      (∀ s ∈ us, s.validParams ∧ s.energyInvariant) → 0 ≤ acc → acc ≤ p →
      (acc ≤ (chargeStorages us p acc).2 ∧ (chargeStorages us p acc).2 ≤ p) ∧
        (∀ s ∈ (chargeStorages us p acc).1,
          s.validParams ∧ s.energyInvariant) ∧
        (((chargeStorages us p acc).1.map
            (fun s => -(min s.currentOutput 0))).sum
          = (chargeStorages us p acc).2 - acc) ∧
        (((chargeStorages us p acc).1.map
            (fun s => max s.currentOutput 0)).sum = 0) := by
  induction us with
  | nil =>
      intro p acc _ _ hap
      refine ⟨⟨le_refl _, hap⟩, ?_, by simp [chargeStorages], ?_⟩
      · intro s hs; cases hs
      · simp [chargeStorages]
  | cons u rest ih =>
      intro p acc hval hacc0 haccp
      have hu := hval u (List.mem_cons_self u rest)
      have hrest : ∀ s ∈ rest, s.validParams ∧ s.energyInvariant :=
        fun s hs => hval s (List.mem_cons_of_mem u hs)
      have hq : max 0 (p - acc) = p - acc := max_eq_right (by linarith)
      have hrem : 0 ≤ u.maxStorage - u.currentEnergy := by
        have := hu.2.2
        linarith
      have hc0 : 0 ≤ min (p - acc)
          (min u.nominal (u.maxStorage - u.currentEnergy)) :=
        le_min (by linarith) (le_min hu.1.2.1.le hrem)
      have hcq : min (p - acc)
          (min u.nominal (u.maxStorage - u.currentEnergy)) ≤ p - acc :=
        min_le_left _ _
      have hcharged : (u.chargeAt (max 0 (p - acc))).2
          = min (p - acc) (min u.nominal (u.maxStorage - u.currentEnergy)) := by
        rw [EnergyStorage.chargeAt, hq]; rfl
      have hout : (u.chargeAt (max 0 (p - acc))).1.currentOutput
          = -(min (p - acc) (min u.nominal (u.maxStorage - u.currentEnergy))) := by
        rw [EnergyStorage.chargeAt, hq]; rfl
      have hinv1 : (u.chargeAt (max 0 (p - acc))).1.validParams ∧
          (u.chargeAt (max 0 (p - acc))).1.energyInvariant :=
        ⟨hu.1, chargeAt_invariant u _ (le_max_left _ _) hu.1.2.1
          hu.1.2.2.2.1 hu.1.2.2.2.2 hu.2⟩
      have ihh := ih p (acc + (u.chargeAt (max 0 (p - acc))).2) hrest
        (by rw [hcharged]; linarith) (by rw [hcharged]; linarith)
      simp only [chargeStorages, List.map_cons, List.sum_cons]
      refine ⟨⟨?_, ihh.1.2⟩, ?_, ?_, ?_⟩
      · calc acc ≤ acc + (u.chargeAt (max 0 (p - acc))).2 := by
              rw [hcharged]; linarith
          _ ≤ _ := ihh.1.1
      · intro s hs
        rcases List.mem_cons.mp hs with h1 | h1
        · subst h1; exact hinv1
        · exact ihh.2.1 s h1
      · rw [ihh.2.2.1, hout, hcharged]
        have : min (-(min (p - acc)
            (min u.nominal (u.maxStorage - u.currentEnergy)))) 0
            = -(min (p - acc)
              (min u.nominal (u.maxStorage - u.currentEnergy))) :=
          min_eq_left (by linarith)
        rw [this]
        ring
      · rw [ihh.2.2.2, hout]
        have : max (-(min (p - acc)
            (min u.nominal (u.maxStorage - u.currentEnergy)))) 0 = 0 :=
          max_eq_right (by linarith)
        rw [this, zero_add]

lemma dischargeStorages_spec (us : List EnergyStorage) :
    ∀ p acc : ℚ,
      (∀ s ∈ us, s.validParams ∧ s.energyInvariant) → 0 ≤ acc → acc ≤ p →
      (acc ≤ (dischargeStorages us p acc).2 ∧
          (dischargeStorages us p acc).2 ≤ p) ∧
        (∀ s ∈ (dischargeStorages us p acc).1,
          s.validParams ∧ s.energyInvariant) ∧
        (((dischargeStorages us p acc).1.map
            (fun s => max s.currentOutput 0)).sum
          = (dischargeStorages us p acc).2 - acc) ∧
        (((dischargeStorages us p acc).1.map
            (fun s => -(min s.currentOutput 0))).sum = 0) := by
  induction us with
  | nil =>
      intro p acc _ _ hap
      refine ⟨⟨le_refl _, hap⟩, ?_, by simp [dischargeStorages], ?_⟩
      · intro s hs; cases hs
      · simp [dischargeStorages]
  | cons u rest ih =>
      intro p acc hval hacc0 haccp
      have hu := hval u (List.mem_cons_self u rest)
      have hrest : ∀ s ∈ rest, s.validParams ∧ s.energyInvariant :=
        fun s hs => hval s (List.mem_cons_of_mem u hs)
      have hq : max 0 (p - acc) = p - acc := max_eq_right (by linarith)
      have hd0 : 0 ≤ min (p - acc) (min u.currentEnergy u.nominal) :=
        le_min (by linarith) (le_min hu.2.1 hu.1.2.1.le)
      have hdq : min (p - acc) (min u.currentEnergy u.nominal) ≤ p - acc :=
        min_le_left _ _
      have hdischarged : (u.dischargeAt (max 0 (p - acc))).2
          = min (p - acc) (min u.currentEnergy u.nominal) := by
        rw [EnergyStorage.dischargeAt, hq]
      have hout : (u.dischargeAt (max 0 (p - acc))).1.currentOutput
          = min (p - acc) (min u.currentEnergy u.nominal) := by
        rw [EnergyStorage.dischargeAt, hq]
      have hinv1 : (u.dischargeAt (max 0 (p - acc))).1.validParams ∧
          (u.dischargeAt (max 0 (p - acc))).1.energyInvariant :=
        ⟨hu.1, dischargeAt_invariant u _ (le_max_left _ _) hu.1.2.1 hu.2⟩
      have ihh := ih p (acc + (u.dischargeAt (max 0 (p - acc))).2) hrest
        (by rw [hdischarged]; linarith) (by rw [hdischarged]; linarith)
      simp only [dischargeStorages, List.map_cons, List.sum_cons]
      refine ⟨⟨?_, ihh.1.2⟩, ?_, ?_, ?_⟩
      · calc acc ≤ acc + (u.dischargeAt (max 0 (p - acc))).2 := by
              rw [hdischarged]; linarith
          _ ≤ _ := ihh.1.1
      · intro s hs
        rcases List.mem_cons.mp hs with h1 | h1
        · subst h1; exact hinv1
        · exact ihh.2.1 s h1
      · rw [ihh.2.2.1, hout, hdischarged]
        rw [max_eq_left hd0]
        ring
      · rw [ihh.2.2.2, hout]
        rw [min_eq_right hd0]
        simp

lemma flex_plain_maxNetPower_pos (u : FlexibleSource) (hp : u.isPlain)
    (hv : u.validParams) : 0 < u.maxNetPower := by
  obtain ⟨s, rfl⟩ := hp
  exact validParams_maxNetPower_pos s hv

lemma scenarioStep_state (inflex gross : ℚ) (fx : List FlexibleSource)
    (st : List EnergyStorage) (cb : Option CrossBorderTerminal)
    (hfx : ∀ f ∈ fx, f.validParams)
    (hst : ∀ s ∈ st, s.validParams ∧ s.energyInvariant)
    (hcb : ∀ t, cb = some t → 0 ≤ t.capacity) :
    (∀ f ∈ (scenarioStep inflex gross ⟨fx, st, cb⟩).1.flexibles,
        f.validParams) ∧
      (∀ s ∈ (scenarioStep inflex gross ⟨fx, st, cb⟩).1.storages,
        s.validParams ∧ s.energyInvariant) ∧
      (∀ t, (scenarioStep inflex gross ⟨fx, st, cb⟩).1.crossBorder = some t →
        0 ≤ t.capacity) ∧
      ((∀ f ∈ fx, f.isPlain) →
        ∀ f ∈ (scenarioStep inflex gross ⟨fx, st, cb⟩).1.flexibles,
          f.isPlain) := by
  rcases le_or_lt gross inflex with hbr | hbr
  · have hsur : (0 : ℚ) ≤ inflex - gross := by linarith
    have hch := chargeStorages_spec st (inflex - gross) 0 hst (le_refl 0) hsur
    cases cb with
    | none =>
        simp only [scenarioStep, if_pos hbr, StorageDispatcher.chargeAt]
        exact ⟨shutDownAll_valid fx hfx, hch.2.1,
          fun t ht => Option.noConfusion ht,
          fun hp => shutDownAll_plain fx hp⟩
    | some t =>
        simp only [scenarioStep, if_pos hbr, StorageDispatcher.chargeAt,
          CrossBorderTerminal.exportAt]
        refine ⟨shutDownAll_valid fx hfx, hch.2.1, ?_,
          fun hp => shutDownAll_plain fx hp⟩
        intro t1 ht1
        simp only [Option.some.injEq] at ht1
        rw [← ht1]
        exact hcb t rfl
  · have hdef : (0 : ℚ) < gross - inflex := by linarith
    have hdis := dischargeStorages_spec st (gross - inflex) 0 hst
      (le_refl 0) hdef.le
    simp only [scenarioStep, if_neg (not_le.mpr hbr),
      StorageDispatcher.dischargeAt, SourceDispatcher.dispatchAt]
    rcases lt_or_le 0 (max 0 ((gross - inflex)
        - (dischargeStorages st (gross - inflex) 0).2)) with hpos | hnonpos
    · rw [if_pos hpos]
      cases cb with
      | none =>
          exact ⟨dispatchSources_valid fx _ _ hfx, hdis.2.1,
            fun t ht => Option.noConfusion ht,
            fun hp => dispatchSources_plain fx _ _ hp⟩
      | some t =>
          simp only [CrossBorderTerminal.importAt]
          refine ⟨dispatchSources_valid fx _ _ hfx, hdis.2.1, ?_,
            fun hp => dispatchSources_plain fx _ _ hp⟩
          intro t1 ht1
          simp only [Option.some.injEq] at ht1
          rw [← ht1]
          exact hcb t rfl
    · rw [if_neg (not_lt.mpr hnonpos)]
      cases cb with
      | none =>
          exact ⟨shutDownAll_valid fx hfx, hdis.2.1,
            fun t ht => Option.noConfusion ht,
            fun hp => shutDownAll_plain fx hp⟩
      | some t =>
          simp only [CrossBorderTerminal.importAt]
          refine ⟨shutDownAll_valid fx hfx, hdis.2.1, ?_,
            fun hp => shutDownAll_plain fx hp⟩
          intro t1 ht1
          simp only [Option.some.injEq] at ht1
          rw [← ht1]
          exact hcb t rfl

lemma scenarioStep_balance_le (inflex gross : ℚ) (fx : List FlexibleSource)
    (st : List EnergyStorage) (cb : Option CrossBorderTerminal)
    (hst : ∀ s ∈ st, s.validParams ∧ s.energyInvariant)
    (hcb : ∀ t, cb = some t → 0 ≤ t.capacity) :
    gross
        + (((scenarioStep inflex gross ⟨fx, st, cb⟩).1.storages.map
            (fun s => -(min s.currentOutput 0))).sum)
        + (match (scenarioStep inflex gross ⟨fx, st, cb⟩).1.crossBorder with
           | some t => -(min t.netImport 0)
           | none => 0)
        + (-(min (scenarioStep inflex gross ⟨fx, st, cb⟩).2 0))
        - (max (scenarioStep inflex gross ⟨fx, st, cb⟩).2 0)
      ≤ inflex
        + (((scenarioStep inflex gross ⟨fx, st, cb⟩).1.flexibles.map
            FlexibleSource.netGeneration).sum)
        + (((scenarioStep inflex gross ⟨fx, st, cb⟩).1.storages.map
            (fun s => max s.currentOutput 0)).sum)
        + (match (scenarioStep inflex gross ⟨fx, st, cb⟩).1.crossBorder with
           | some t => max t.netImport 0
           | none => 0) := by
  rcases le_or_lt gross inflex with hbr | hbr
  · -- surplus branch: exact balance, hence the bound
    have hsur : (0 : ℚ) ≤ inflex - gross := by linarith
    have hch := chargeStorages_spec st (inflex - gross) 0 hst (le_refl 0) hsur
    have hC0 : 0 ≤ (chargeStorages st (inflex - gross) 0).2 := hch.1.1
    have hCs : (chargeStorages st (inflex - gross) 0).2 ≤ inflex - gross :=
      hch.1.2
    have hs1 : max 0 ((inflex - gross)
        - (chargeStorages st (inflex - gross) 0).2)
        = (inflex - gross) - (chargeStorages st (inflex - gross) 0).2 :=
      max_eq_right (by linarith)
    cases cb with
    | none =>
        simp only [scenarioStep, if_pos hbr, StorageDispatcher.chargeAt]
        rw [shutDownAll_netGen, hch.2.2.1, hch.2.2.2]
        simp only [sub_zero, hs1]
        rw [min_eq_left (by linarith : -((inflex - gross)
          - (chargeStorages st (inflex - gross) 0).2) ≤ 0)]
        rw [max_eq_right (by linarith : -((inflex - gross)
          - (chargeStorages st (inflex - gross) 0).2) ≤ 0)]
        linarith
    | some t =>
        have hcap : 0 ≤ t.capacity := hcb t rfl
        simp only [scenarioStep, if_pos hbr, StorageDispatcher.chargeAt,
          CrossBorderTerminal.exportAt]
        rw [shutDownAll_netGen, hch.2.2.1, hch.2.2.2]
        simp only [sub_zero, neg_neg, hs1]
        have he0 : 0 ≤ min t.capacity ((inflex - gross)
            - (chargeStorages st (inflex - gross) 0).2) :=
          le_min hcap (by linarith)
        have hes : min t.capacity ((inflex - gross)
            - (chargeStorages st (inflex - gross) 0).2)
            ≤ (inflex - gross)
              - (chargeStorages st (inflex - gross) 0).2 :=
          min_le_right _ _
        rw [max_eq_right (by linarith : -(min t.capacity ((inflex - gross)
          - (chargeStorages st (inflex - gross) 0).2)) ≤ 0)]
        rw [min_eq_left (by linarith : -(min t.capacity ((inflex - gross)
          - (chargeStorages st (inflex - gross) 0).2)) ≤ 0)]
        rw [max_eq_right (by linarith : (0 : ℚ) ≤ (inflex - gross)
          - (chargeStorages st (inflex - gross) 0).2
          - min t.capacity ((inflex - gross)
            - (chargeStorages st (inflex - gross) 0).2))]
        rw [min_eq_left (by linarith : -((inflex - gross)
          - (chargeStorages st (inflex - gross) 0).2
          - min t.capacity ((inflex - gross)
            - (chargeStorages st (inflex - gross) 0).2)) ≤ 0)]
        rw [max_eq_right (by linarith : -((inflex - gross)
          - (chargeStorages st (inflex - gross) 0).2
          - min t.capacity ((inflex - gross)
            - (chargeStorages st (inflex - gross) 0).2)) ≤ 0)]
        simp only [neg_neg]
        linarith
  · -- deficit branch
    have hdef : (0 : ℚ) < gross - inflex := by linarith
    have hdis := dischargeStorages_spec st (gross - inflex) 0 hst
      (le_refl 0) hdef.le
    have hD0 : 0 ≤ (dischargeStorages st (gross - inflex) 0).2 := hdis.1.1
    have hDs : (dischargeStorages st (gross - inflex) 0).2 ≤ gross - inflex :=
      hdis.1.2
    have hd1 : max 0 ((gross - inflex)
        - (dischargeStorages st (gross - inflex) 0).2)
        = (gross - inflex) - (dischargeStorages st (gross - inflex) 0).2 :=
      max_eq_right (by linarith)
    simp only [scenarioStep, if_neg (not_le.mpr hbr),
      StorageDispatcher.dischargeAt, SourceDispatcher.dispatchAt, hd1]
    rcases lt_or_le 0 ((gross - inflex)
        - (dischargeStorages st (gross - inflex) 0).2) with hpos | hnonpos
    · -- flexible dispatch happens
      have hFsum : (List.map FlexibleSource.netGeneration
          (dispatchSources fx ((gross - inflex)
            - (dischargeStorages st (gross - inflex) 0).2) 0).1).sum
          = (dispatchSources fx ((gross - inflex)
            - (dischargeStorages st (gross - inflex) 0).2) 0).2 := by
        rw [dispatchSources_sum fx ((gross - inflex)
          - (dischargeStorages st (gross - inflex) 0).2) 0, zero_add]
      rw [if_pos hpos]
      rcases le_total ((dispatchSources fx ((gross - inflex)
            - (dischargeStorages st (gross - inflex) 0).2) 0).2)
          ((gross - inflex) - (dischargeStorages st (gross - inflex) 0).2)
        with hFd | hFd
      · -- the flexibles produce no more than the residual deficit
        have hd2 : max 0 ((gross - inflex)
            - (dischargeStorages st (gross - inflex) 0).2
            - (dispatchSources fx ((gross - inflex)
              - (dischargeStorages st (gross - inflex) 0).2) 0).2)
            = (gross - inflex)
              - (dischargeStorages st (gross - inflex) 0).2
              - (dispatchSources fx ((gross - inflex)
                - (dischargeStorages st (gross - inflex) 0).2) 0).2 :=
          max_eq_right (by linarith)
        cases cb with
        | none =>
            rw [hdis.2.2.1, hdis.2.2.2, hFsum]
            simp only [sub_zero, hd2]
            rw [max_eq_left (by linarith : (0 : ℚ) ≤ (gross - inflex)
              - (dischargeStorages st (gross - inflex) 0).2
              - (dispatchSources fx ((gross - inflex)
                - (dischargeStorages st (gross - inflex) 0).2) 0).2)]
            rw [min_eq_right (by linarith : (0 : ℚ) ≤ (gross - inflex)
              - (dischargeStorages st (gross - inflex) 0).2
              - (dispatchSources fx ((gross - inflex)
                - (dischargeStorages st (gross - inflex) 0).2) 0).2)]
            linarith
        | some t =>
            have hcap : 0 ≤ t.capacity := hcb t rfl
            simp only [CrossBorderTerminal.importAt]
            rw [hdis.2.2.1, hdis.2.2.2, hFsum]
            simp only [sub_zero, hd2]
            have hi0 : 0 ≤ min t.capacity ((gross - inflex)
                - (dischargeStorages st (gross - inflex) 0).2
                - (dispatchSources fx ((gross - inflex)
                  - (dischargeStorages st (gross - inflex) 0).2) 0).2) :=
              le_min hcap (by linarith)
            have his : min t.capacity ((gross - inflex)
                - (dischargeStorages st (gross - inflex) 0).2
                - (dispatchSources fx ((gross - inflex)
                  - (dischargeStorages st (gross - inflex) 0).2) 0).2)
                ≤ (gross - inflex)
                  - (dischargeStorages st (gross - inflex) 0).2
                  - (dispatchSources fx ((gross - inflex)
                    - (dischargeStorages st (gross - inflex) 0).2) 0).2 :=
              min_le_right _ _
            rw [max_eq_left hi0, min_eq_right hi0]
            have hrq : (0 : ℚ) ≤ (gross - inflex)
                - (dischargeStorages st (gross - inflex) 0).2
                - (dispatchSources fx ((gross - inflex)
                  - (dischargeStorages st (gross - inflex) 0).2) 0).2
                - min t.capacity ((gross - inflex)
                  - (dischargeStorages st (gross - inflex) 0).2
                  - (dispatchSources fx ((gross - inflex)
                    - (dischargeStorages st (gross - inflex) 0).2) 0).2) := by
              linarith
            rw [max_eq_right hrq, max_eq_left hrq, min_eq_right hrq]
            exact le_of_eq (by ring)
      · -- the flexibles overshoot the residual deficit: strict slack
        have hd2 : max 0 ((gross - inflex)
            - (dischargeStorages st (gross - inflex) 0).2
            - (dispatchSources fx ((gross - inflex)
              - (dischargeStorages st (gross - inflex) 0).2) 0).2)
            = 0 :=
          max_eq_left (by linarith)
        cases cb with
        | none =>
            rw [hdis.2.2.1, hdis.2.2.2, hFsum]
            simp only [sub_zero, hd2, max_self, min_self, neg_zero]
            linarith
        | some t =>
            have hcap : 0 ≤ t.capacity := hcb t rfl
            simp only [CrossBorderTerminal.importAt]
            rw [hdis.2.2.1, hdis.2.2.2, hFsum]
            simp only [hd2]
            rw [min_eq_right hcap]
            simp only [sub_zero, max_self, min_self, neg_zero]
            linarith
    · -- residual deficit is zero: flexibles are shut down
      have hzero : (gross - inflex)
          - (dischargeStorages st (gross - inflex) 0).2 = 0 := by
        linarith
      rw [if_neg (by rw [hzero]; exact lt_irrefl 0)]
      cases cb with
      | none =>
          rw [hdis.2.2.1, hdis.2.2.2, shutDownAll_netGen, hzero]
          simp only [sub_zero, max_self, min_self, neg_zero]
          linarith
      | some t =>
          have hcap : 0 ≤ t.capacity := hcb t rfl
          simp only [CrossBorderTerminal.importAt]
          rw [hdis.2.2.1, hdis.2.2.2, shutDownAll_netGen, hzero]
          rw [min_eq_right hcap]
          simp only [sub_zero, max_self, min_self, neg_zero]
          linarith

lemma scenarioStep_balance_eq (inflex gross : ℚ) (fx : List FlexibleSource)
    (st : List EnergyStorage) (cb : Option CrossBorderTerminal)
    (hfx : ∀ f ∈ fx, f.validParams)
    (hplain : ∀ f ∈ fx, f.isPlain)
    (hst : ∀ s ∈ st, s.validParams ∧ s.energyInvariant)
    (hcb : ∀ t, cb = some t → 0 ≤ t.capacity) :
    inflex
        + (((scenarioStep inflex gross ⟨fx, st, cb⟩).1.flexibles.map
            FlexibleSource.netGeneration).sum)
        + (((scenarioStep inflex gross ⟨fx, st, cb⟩).1.storages.map
            (fun s => max s.currentOutput 0)).sum)
        + (match (scenarioStep inflex gross ⟨fx, st, cb⟩).1.crossBorder with
           | some t => max t.netImport 0
           | none => 0)
      = gross
        + (((scenarioStep inflex gross ⟨fx, st, cb⟩).1.storages.map
            (fun s => -(min s.currentOutput 0))).sum)
        + (match (scenarioStep inflex gross ⟨fx, st, cb⟩).1.crossBorder with
           | some t => -(min t.netImport 0)
           | none => 0)
        + (-(min (scenarioStep inflex gross ⟨fx, st, cb⟩).2 0))
        - (max (scenarioStep inflex gross ⟨fx, st, cb⟩).2 0) := by
  have hcaps : ∀ u ∈ fx, u.isPlain ∧ 0 < u.maxNetPower :=
    fun u hu => ⟨hplain u hu,
      flex_plain_maxNetPower_pos u (hplain u hu) (hfx u hu)⟩
  rcases le_or_lt gross inflex with hbr | hbr
  · -- surplus branch
    have hsur : (0 : ℚ) ≤ inflex - gross := by linarith
    have hch := chargeStorages_spec st (inflex - gross) 0 hst (le_refl 0) hsur
    have hC0 : 0 ≤ (chargeStorages st (inflex - gross) 0).2 := hch.1.1
    have hCs : (chargeStorages st (inflex - gross) 0).2 ≤ inflex - gross :=
      hch.1.2
    have hs1 : max 0 ((inflex - gross)
        - (chargeStorages st (inflex - gross) 0).2)
        = (inflex - gross) - (chargeStorages st (inflex - gross) 0).2 :=
      max_eq_right (by linarith)
    cases cb with
    | none =>
        simp only [scenarioStep, if_pos hbr, StorageDispatcher.chargeAt]
        rw [shutDownAll_netGen, hch.2.2.1, hch.2.2.2]
        simp only [sub_zero, hs1]
        rw [min_eq_left (by linarith : -((inflex - gross)
          - (chargeStorages st (inflex - gross) 0).2) ≤ 0)]
        rw [max_eq_right (by linarith : -((inflex - gross)
          - (chargeStorages st (inflex - gross) 0).2) ≤ 0)]
        linarith
    | some t =>
        have hcap : 0 ≤ t.capacity := hcb t rfl
        simp only [scenarioStep, if_pos hbr, StorageDispatcher.chargeAt,
          CrossBorderTerminal.exportAt]
        rw [shutDownAll_netGen, hch.2.2.1, hch.2.2.2]
        simp only [sub_zero, neg_neg, hs1]
        have he0 : 0 ≤ min t.capacity ((inflex - gross)
            - (chargeStorages st (inflex - gross) 0).2) :=
          le_min hcap (by linarith)
        have hes : min t.capacity ((inflex - gross)
            - (chargeStorages st (inflex - gross) 0).2)
            ≤ (inflex - gross)
              - (chargeStorages st (inflex - gross) 0).2 :=
          min_le_right _ _
        rw [max_eq_right (by linarith : -(min t.capacity ((inflex - gross)
          - (chargeStorages st (inflex - gross) 0).2)) ≤ 0)]
        rw [min_eq_left (by linarith : -(min t.capacity ((inflex - gross)
          - (chargeStorages st (inflex - gross) 0).2)) ≤ 0)]
        rw [max_eq_right (by linarith : (0 : ℚ) ≤ (inflex - gross)
          - (chargeStorages st (inflex - gross) 0).2
          - min t.capacity ((inflex - gross)
            - (chargeStorages st (inflex - gross) 0).2))]
        rw [min_eq_left (by linarith : -((inflex - gross)
          - (chargeStorages st (inflex - gross) 0).2
          - min t.capacity ((inflex - gross)
            - (chargeStorages st (inflex - gross) 0).2)) ≤ 0)]
        rw [max_eq_right (by linarith : -((inflex - gross)
          - (chargeStorages st (inflex - gross) 0).2
          - min t.capacity ((inflex - gross)
            - (chargeStorages st (inflex - gross) 0).2)) ≤ 0)]
        simp only [neg_neg]
        linarith
  · -- deficit branch
    have hdef : (0 : ℚ) < gross - inflex := by linarith
    have hdis := dischargeStorages_spec st (gross - inflex) 0 hst
      (le_refl 0) hdef.le
    have hD0 : 0 ≤ (dischargeStorages st (gross - inflex) 0).2 := hdis.1.1
    have hDs : (dischargeStorages st (gross - inflex) 0).2 ≤ gross - inflex :=
      hdis.1.2
    have hd1 : max 0 ((gross - inflex)
        - (dischargeStorages st (gross - inflex) 0).2)
        = (gross - inflex) - (dischargeStorages st (gross - inflex) 0).2 :=
      max_eq_right (by linarith)
    simp only [scenarioStep, if_neg (not_le.mpr hbr),
      StorageDispatcher.dischargeAt, SourceDispatcher.dispatchAt, hd1]
    rcases lt_or_le 0 ((gross - inflex)
        - (dischargeStorages st (gross - inflex) 0).2) with hpos | hnonpos
    · -- flexible dispatch happens
      have hF := dispatchSources_total fx ((gross - inflex)
        - (dischargeStorages st (gross - inflex) 0).2) 0 hcaps
        (le_refl 0) hpos.le
      have hFsum : (List.map FlexibleSource.netGeneration
          (dispatchSources fx ((gross - inflex)
            - (dischargeStorages st (gross - inflex) 0).2) 0).1).sum
          = (dispatchSources fx ((gross - inflex)
            - (dischargeStorages st (gross - inflex) 0).2) 0).2 := by
        rw [dispatchSources_sum fx ((gross - inflex)
          - (dischargeStorages st (gross - inflex) 0).2) 0, zero_add]
      have hSnn : 0 ≤ (fx.map FlexibleSource.maxNetPower).sum :=
        maxNetPower_sum_nonneg fx (fun u hu => (hcaps u hu).2)
      have hF0 : 0 ≤ (dispatchSources fx ((gross - inflex)
          - (dischargeStorages st (gross - inflex) 0).2) 0).2 := by
        rw [hF]
        exact le_min hpos.le (by linarith)
      have hFle : (dispatchSources fx ((gross - inflex)
          - (dischargeStorages st (gross - inflex) 0).2) 0).2
          ≤ (gross - inflex)
            - (dischargeStorages st (gross - inflex) 0).2 := by
        rw [hF]
        exact min_le_left _ _
      rw [if_pos hpos]
      have hd2 : max 0 ((gross - inflex)
          - (dischargeStorages st (gross - inflex) 0).2
          - (dispatchSources fx ((gross - inflex)
            - (dischargeStorages st (gross - inflex) 0).2) 0).2)
          = (gross - inflex)
            - (dischargeStorages st (gross - inflex) 0).2
            - (dispatchSources fx ((gross - inflex)
              - (dischargeStorages st (gross - inflex) 0).2) 0).2 :=
        max_eq_right (by linarith)
      cases cb with
      | none =>
          rw [hdis.2.2.1, hdis.2.2.2, hFsum]
          simp only [sub_zero, hd2]
          rw [max_eq_left (by linarith : (0 : ℚ) ≤ (gross - inflex)
            - (dischargeStorages st (gross - inflex) 0).2
            - (dispatchSources fx ((gross - inflex)
              - (dischargeStorages st (gross - inflex) 0).2) 0).2)]
          rw [min_eq_right (by linarith : (0 : ℚ) ≤ (gross - inflex)
            - (dischargeStorages st (gross - inflex) 0).2
            - (dispatchSources fx ((gross - inflex)
              - (dischargeStorages st (gross - inflex) 0).2) 0).2)]
          linarith
      | some t =>
          have hcap : 0 ≤ t.capacity := hcb t rfl
          simp only [CrossBorderTerminal.importAt]
          rw [hdis.2.2.1, hdis.2.2.2, hFsum]
          simp only [sub_zero, hd2]
          have hi0 : 0 ≤ min t.capacity ((gross - inflex)
              - (dischargeStorages st (gross - inflex) 0).2
              - (dispatchSources fx ((gross - inflex)
                - (dischargeStorages st (gross - inflex) 0).2) 0).2) :=
            le_min hcap (by linarith)
          have his : min t.capacity ((gross - inflex)
              - (dischargeStorages st (gross - inflex) 0).2
              - (dispatchSources fx ((gross - inflex)
                - (dischargeStorages st (gross - inflex) 0).2) 0).2)
              ≤ (gross - inflex)
                - (dischargeStorages st (gross - inflex) 0).2
                - (dispatchSources fx ((gross - inflex)
                  - (dischargeStorages st (gross - inflex) 0).2) 0).2 :=
            min_le_right _ _
          rw [max_eq_left hi0, min_eq_right hi0]
          have hrq : (0 : ℚ) ≤ (gross - inflex)
              - (dischargeStorages st (gross - inflex) 0).2
              - (dispatchSources fx ((gross - inflex)
                - (dischargeStorages st (gross - inflex) 0).2) 0).2
              - min t.capacity ((gross - inflex)
                - (dischargeStorages st (gross - inflex) 0).2
                - (dispatchSources fx ((gross - inflex)
                  - (dischargeStorages st (gross - inflex) 0).2) 0).2) := by
            linarith
          rw [max_eq_right hrq, max_eq_left hrq, min_eq_right hrq]
          ring
    · -- residual deficit is zero: flexibles are shut down
      have hzero : (gross - inflex)
          - (dischargeStorages st (gross - inflex) 0).2 = 0 := by
        linarith
      rw [if_neg (by rw [hzero]; exact lt_irrefl 0)]
      cases cb with
      | none =>
          rw [hdis.2.2.1, hdis.2.2.2, shutDownAll_netGen, hzero]
          simp only [sub_zero, max_self, min_self, neg_zero]
          linarith
      | some t =>
          have hcap : 0 ≤ t.capacity := hcb t rfl
          simp only [CrossBorderTerminal.importAt]
          rw [hdis.2.2.1, hdis.2.2.2, shutDownAll_netGen, hzero]
          rw [min_eq_right hcap]
          simp only [sub_zero, max_self, min_self, neg_zero]
          linarith

lemma sweep_actualBalance (sc1 : Scenario) (shv gross : ℚ)
    (hbal : ((sc1.baseloads.map PowerSource.netGeneration).sum
          + (sc1.intermittents.map (fun p => p.1.netGeneration)).sum)
        + (sc1.flexibles.map FlexibleSource.netGeneration).sum
        + (sc1.storages.map (fun s => max s.currentOutput 0)).sum
        + (match sc1.crossBorder with
           | some t => max t.netImport 0
           | none => 0)
      = gross + (sc1.storages.map (fun s => -(min s.currentOutput 0))).sum
        + (match sc1.crossBorder with
           | some t => -(min t.netImport 0)
           | none => 0)
        + (-(min shv 0)) - max shv 0) :
    StepRecord.actualBalance gross (sc1.sweep shv) := by
  unfold StepRecord.actualBalance Scenario.sweep
    StepRecord.inflexibleGeneration StepRecord.flexibleGenerationSum
    StepRecord.discharging StepRecord.charging StepRecord.importPower
    StepRecord.exportPower StepRecord.shortagePart StepRecord.dumpPart
  cases hc : sc1.crossBorder with
  | none =>
      rw [hc] at hbal
      simpa [List.map_map, Function.comp] using hbal
  | some t =>
      rw [hc] at hbal
      simpa [List.map_map, Function.comp] using hbal

lemma sweep_balanceLower (sc1 : Scenario) (shv gross : ℚ)
    (hbal : gross
          + (sc1.storages.map (fun s => -(min s.currentOutput 0))).sum
          + (match sc1.crossBorder with
             | some t => -(min t.netImport 0)
             | none => 0)
          + (-(min shv 0)) - max shv 0
        ≤ ((sc1.baseloads.map PowerSource.netGeneration).sum
            + (sc1.intermittents.map (fun p => p.1.netGeneration)).sum)
          + (sc1.flexibles.map FlexibleSource.netGeneration).sum
          + (sc1.storages.map (fun s => max s.currentOutput 0)).sum
          + (match sc1.crossBorder with
             | some t => max t.netImport 0
             | none => 0)) :
    StepRecord.balanceLower gross (sc1.sweep shv) := by
  unfold StepRecord.balanceLower Scenario.sweep
    StepRecord.inflexibleGeneration StepRecord.flexibleGenerationSum
    StepRecord.discharging StepRecord.charging StepRecord.importPower
    StepRecord.exportPower StepRecord.shortagePart StepRecord.dumpPart
  cases hc : sc1.crossBorder with
  | none =>
      rw [hc] at hbal
      simpa [List.map_map, Function.comp] using hbal
  | some t =>
      rw [hc] at hbal
      simpa [List.map_map, Function.comp] using hbal

lemma stepAt_gridLosses (sc : Scenario) (i : ℕ) (l : ℚ) :
    (sc.stepAt i l).1.gridLosses = sc.gridLosses := rfl

lemma runFrom_cons (sc : Scenario) (i : ℕ) (l : ℚ) (rest : List ℚ) :
    (sc.runFrom i (l :: rest)).2
      = (sc.stepAt i l).1.sweep (sc.stepAt i l).2
        :: ((sc.stepAt i l).1.runFrom (i + 1) rest).2 := rfl

lemma stepAt_unfold (sc : Scenario) (i : ℕ) (l : ℚ) :
    sc.stepAt i l
      = ({ sc with
            intermittents := sc.intermittents.map
              (fun p => ({ p.1 with utilisation := p.2.getD i 0 }, p.2)),
            flexibles := (scenarioStep
              ((sc.baseloads.map PowerSource.netGeneration).sum
                + ((sc.intermittents.map
                    (fun p => ({ p.1 with utilisation := p.2.getD i 0 },
                      p.2))).map
                      (fun p => p.1.netGeneration)).sum)
              (l * (1 + sc.gridLosses))
              ⟨sc.flexibles, sc.storages, sc.crossBorder⟩).1.flexibles,
            storages := (scenarioStep
              ((sc.baseloads.map PowerSource.netGeneration).sum
                + ((sc.intermittents.map
                    (fun p => ({ p.1 with utilisation := p.2.getD i 0 },
                      p.2))).map
                      (fun p => p.1.netGeneration)).sum)
              (l * (1 + sc.gridLosses))
              ⟨sc.flexibles, sc.storages, sc.crossBorder⟩).1.storages,
            crossBorder := (scenarioStep
              ((sc.baseloads.map PowerSource.netGeneration).sum
                + ((sc.intermittents.map
                    (fun p => ({ p.1 with utilisation := p.2.getD i 0 },
                      p.2))).map
                      (fun p => p.1.netGeneration)).sum)
              (l * (1 + sc.gridLosses))
              ⟨sc.flexibles, sc.storages, sc.crossBorder⟩).1.crossBorder },
          (scenarioStep
            ((sc.baseloads.map PowerSource.netGeneration).sum
              + ((sc.intermittents.map
                  (fun p => ({ p.1 with utilisation := p.2.getD i 0 },
                    p.2))).map
                    (fun p => p.1.netGeneration)).sum)
            (l * (1 + sc.gridLosses))
            ⟨sc.flexibles, sc.storages, sc.crossBorder⟩).2) := rfl

lemma stepAt_spec (sc : Scenario) (i : ℕ) (l : ℚ)
    (hfx : ∀ f ∈ sc.flexibles, f.validParams)
    (hst : ∀ s ∈ sc.storages, s.validParams ∧ s.energyInvariant)
    (hcb : ∀ t, sc.crossBorder = some t → 0 ≤ t.capacity) :
    (∀ f ∈ (sc.stepAt i l).1.flexibles, f.validParams) ∧
      (∀ s ∈ (sc.stepAt i l).1.storages,
        s.validParams ∧ s.energyInvariant) ∧
      (∀ t, (sc.stepAt i l).1.crossBorder = some t → 0 ≤ t.capacity) ∧
      ((∀ f ∈ sc.flexibles, f.isPlain) →
        ∀ f ∈ (sc.stepAt i l).1.flexibles, f.isPlain) ∧
      StepRecord.balanceLower (l * (1 + sc.gridLosses))
        ((sc.stepAt i l).1.sweep (sc.stepAt i l).2) ∧
      ((∀ f ∈ sc.flexibles, f.isPlain) →
        StepRecord.actualBalance (l * (1 + sc.gridLosses))
          ((sc.stepAt i l).1.sweep (sc.stepAt i l).2)) := by
  have hs := scenarioStep_state
    ((sc.baseloads.map PowerSource.netGeneration).sum
      + ((sc.intermittents.map
          (fun p => ({ p.1 with utilisation := p.2.getD i 0 }, p.2))).map
            (fun p => p.1.netGeneration)).sum)
    (l * (1 + sc.gridLosses)) sc.flexibles sc.storages sc.crossBorder
    hfx hst hcb
  have hle := scenarioStep_balance_le
    ((sc.baseloads.map PowerSource.netGeneration).sum
      + ((sc.intermittents.map
          (fun p => ({ p.1 with utilisation := p.2.getD i 0 }, p.2))).map
            (fun p => p.1.netGeneration)).sum)
    (l * (1 + sc.gridLosses)) sc.flexibles sc.storages sc.crossBorder
    hst hcb
  rw [stepAt_unfold]
  refine ⟨hs.1, hs.2.1, hs.2.2.1, hs.2.2.2, sweep_balanceLower _ _ _ hle,
    fun hp => sweep_actualBalance _ _ _ (scenarioStep_balance_eq
      ((sc.baseloads.map PowerSource.netGeneration).sum
        + ((sc.intermittents.map
            (fun p => ({ p.1 with utilisation := p.2.getD i 0 }, p.2))).map
              (fun p => p.1.netGeneration)).sum)
      (l * (1 + sc.gridLosses)) sc.flexibles sc.storages sc.crossBorder
      hfx hp hst hcb)⟩

lemma runFrom_balance (loads : List ℚ) :
    ∀ (sc : Scenario) (i : ℕ),
      (∀ f ∈ sc.flexibles, f.validParams) →
      (∀ s ∈ sc.storages, s.validParams ∧ s.energyInvariant) →
      (∀ t, sc.crossBorder = some t → 0 ≤ t.capacity) →
      ∀ pr ∈ loads.zip (sc.runFrom i loads).2,
        StepRecord.balanceLower (pr.1 * (1 + sc.gridLosses)) pr.2 ∧
          ((∀ f ∈ sc.flexibles, f.isPlain) →
            StepRecord.actualBalance (pr.1 * (1 + sc.gridLosses)) pr.2) := by
  induction loads with
  | nil =>
      intro sc i _ _ _ pr hpr
      simp [Scenario.runFrom] at hpr
  | cons l rest ih =>
      intro sc i hfx hst hcb pr hpr
      rw [runFrom_cons, List.zip_cons_cons] at hpr
      have hb := stepAt_spec sc i l hfx hst hcb
      rcases List.mem_cons.mp hpr with hhead | htail
      · subst hhead
        exact ⟨hb.2.2.2.2.1, hb.2.2.2.2.2⟩
      · have ht := ih (sc.stepAt i l).1 (i + 1) hb.1 hb.2.1 hb.2.2.1 pr htail
        rw [stepAt_gridLosses] at ht
        exact ⟨ht.1, fun hp => ht.2 (hb.2.2.2.1 hp)⟩

/-- Claim C1 counterexample: the claimed equation fails on the valid
3-step baseload scenario at its third step (load 1500, left side 1000,
right side 2000) — it carries shortage and dump with the wrong signs;
and even the sign-corrected exact equality fails on the valid thermal
scenario at its second step, where the plant's minimum-load hold
generates 150 MW against a gross consumption of 10 MW with recorded
shortage 0 and no dump. -/
theorem C1_claimed_balance_counterexample :
    (baseloadScenario.valid ∧
      ¬ (∀ pr ∈ baseloadScenario.load.zip
            (Scenario.run baseloadScenario).2.records,
          StepRecord.claimedBalance
            (pr.1 * (1 + baseloadScenario.gridLosses)) pr.2)) ∧
      (thermalScenario.valid ∧
        ¬ (∀ pr ∈ thermalScenario.load.zip
              (Scenario.run thermalScenario).2.records,
            StepRecord.actualBalance
              (pr.1 * (1 + thermalScenario.gridLosses)) pr.2)) := by
  refine ⟨⟨?_, ?_⟩, ⟨?_, ?_⟩⟩
  · exact ⟨fun f hf => absurd hf (List.not_mem_nil f),
      fun s hs => absurd hs (List.not_mem_nil s),
      fun t ht => Option.noConfusion ht⟩
  · intro hall
    have hmem : (((1500 : ℚ),
        (⟨[("baseload", 1000)], [], [], [], none, 500⟩ : StepRecord)))
        ∈ baseloadScenario.load.zip
            (Scenario.run baseloadScenario).2.records := by
      norm_num [baseloadScenario, Scenario.run, Scenario.runFrom,
        Scenario.stepAt, scenarioStep, Scenario.sweep,
        StorageDispatcher.chargeAt, StorageDispatcher.dischargeAt,
        chargeStorages, dischargeStorages, SourceDispatcher.shutDownAll,
        SourceDispatcher.dispatchAt, dispatchSources,
        PowerSource.netGeneration, PowerSource.generation, List.zip,
        List.zipWith]
    have hbal := hall _ hmem
    norm_num [StepRecord.claimedBalance, StepRecord.inflexibleGeneration,
      StepRecord.flexibleGenerationSum, StepRecord.discharging,
      StepRecord.charging, StepRecord.importPower, StepRecord.exportPower,
      StepRecord.shortagePart, StepRecord.dumpPart, baseloadScenario]
      at hbal
  · refine ⟨fun f hf => ?_, fun s hs => absurd hs (List.not_mem_nil s),
      fun t ht => Option.noConfusion ht⟩
    have : f = FlexibleSource.thermal (mkThermal "gas" 200 0 (3/4) 0 5 0) := by
      simpa [thermalScenario] using hf
    subst this
    refine ⟨by decide, by norm_num [mkThermal], by norm_num [mkThermal],
      by norm_num [mkThermal], by norm_num [mkThermal],
      by norm_num [mkThermal]⟩
  · intro hall
    have hmem : (((10 : ℚ),
        (⟨[], [], [("gas", 150)], [], none, 0⟩ : StepRecord)))
        ∈ thermalScenario.load.zip
            (Scenario.run thermalScenario).2.records := by
      norm_num [thermalScenario, Scenario.run, Scenario.runFrom,
        Scenario.stepAt, scenarioStep, Scenario.sweep,
        StorageDispatcher.chargeAt, StorageDispatcher.dischargeAt,
        chargeStorages, dischargeStorages, SourceDispatcher.shutDownAll,
        SourceDispatcher.dispatchAt, dispatchSources,
        FlexibleSource.dispatchAt, FlexibleSource.netGeneration,
        FlexibleSource.name, FlexibleSource.shutDown,
        ThermalPowerPlant.dispatchAt, ThermalPowerPlant.netGeneration,
        ThermalPowerPlant.maxNetPower, ThermalPowerPlant.shutDown,
        mkThermal, List.zip, List.zipWith]
    have hbal := hall _ hmem
    norm_num [StepRecord.actualBalance, StepRecord.inflexibleGeneration,
      StepRecord.flexibleGenerationSum, StepRecord.discharging,
      StepRecord.charging, StepRecord.importPower, StepRecord.exportPower,
      StepRecord.shortagePart, StepRecord.dumpPart, thermalScenario]
      at hbal

/-- Claim C1 (amended): for every valid scenario (flexible sources with
valid parameters, storage units with valid parameters and in-bounds
energy, a non-negative terminal capacity) and every time step of
`Scenario.run`, the per-step energy balance holds with dump and shortage
on their correct sides as the inequality gross consumption + charging +
export + dump − shortage ≤ inflexible generation + flexible generation +
discharging + import — the slack is the flexible overgeneration a
thermal plant's minimum-load hold or startup ramp forces, which the code
books nowhere — and it holds as an exact equality whenever every
flexible source is a plain dispatchable source. -/
theorem C1_energy_balance (sc : Scenario) (hv : sc.valid) :
    ∀ pr ∈ sc.load.zip (Scenario.run sc).2.records,
      StepRecord.balanceLower (pr.1 * (1 + sc.gridLosses)) pr.2 ∧
        ((∀ f ∈ sc.flexibles, f.isPlain) →
          StepRecord.actualBalance (pr.1 * (1 + sc.gridLosses)) pr.2) := by
  intro pr hpr
  exact runFrom_balance sc.load sc 0 hv.1 hv.2.1 hv.2.2 pr hpr

/-- Claim C1 witness: the amended balance (both the inequality and, the
flexibles list being empty, the exact equality) evaluated on a concrete
1-step scenario with an 8 MW baseload source and load 10, whose recorded
step has shortage 2. -/
theorem C1_energy_balance_witness :
    StepRecord.balanceLower ((10 : ℚ) * (1 + 0))
        ⟨[("b", 8)], [], [], [], none, 2⟩ ∧
      StepRecord.actualBalance ((10 : ℚ) * (1 + 0))
        ⟨[("b", 8)], [], [], [], none, 2⟩ := by
  have h := C1_energy_balance
    ⟨[10], [⟨"b", 8, 0, 1⟩], [], [], [], none, 0⟩
    ⟨fun f hf => absurd hf (List.not_mem_nil f),
      fun s hs => absurd hs (List.not_mem_nil s),
      fun t ht => Option.noConfusion ht⟩
    ((10 : ℚ), ⟨[("b", 8)], [], [], [], none, 2⟩)
    (by norm_num [Scenario.run, Scenario.runFrom, Scenario.stepAt,
      scenarioStep, Scenario.sweep, StorageDispatcher.chargeAt,
      StorageDispatcher.dischargeAt, chargeStorages, dischargeStorages,
      SourceDispatcher.shutDownAll, SourceDispatcher.dispatchAt,
      dispatchSources, PowerSource.netGeneration, PowerSource.generation,
      List.zip, List.zipWith])
  exact ⟨h.1, h.2 (fun f hf => absurd hf (List.not_mem_nil f))⟩

/-- Claim C2 counterexample: the 3-step scenario with a single 1000 MW
baseload source and load `[500, 1000, 1500]` records a total generation
of 3000 MWh for the baseload source (1000 in each of the three steps),
not the claimed 2500 MWh. -/
theorem C2_end_to_end_counterexample :
    (Scenario.run baseloadScenario).2.computeGeneration "baseload" = 3000 ∧
      (3000 : ℚ) ≠ 2500 := by
  constructor
  · norm_num [baseloadScenario, Scenario.run, Scenario.runFrom,
      Scenario.stepAt, scenarioStep, Scenario.sweep,
      ScenarioRun.computeGeneration, StorageDispatcher.chargeAt,
      StorageDispatcher.dischargeAt, chargeStorages, dischargeStorages,
      SourceDispatcher.shutDownAll, SourceDispatcher.dispatchAt,
      dispatchSources, PowerSource.netGeneration, PowerSource.generation,
      List.filter]
  · norm_num

/-- Claim C2 (amended): the 3-step single-baseload scenario records the
shortage values `[-500, 0, 500]` — per-step shortages `[0, 0, 500]`
together with a 500 MW dump in the first step — and a total generation
of 3000 MWh for the baseload source. -/
theorem C2_end_to_end (sc : Scenario) (hsc : sc = baseloadScenario) :
    (Scenario.run sc).2.shortages = [-500, 0, 500] ∧
      (Scenario.run sc).2.computeGeneration "baseload" = 3000 := by
  subst hsc
  constructor
  · norm_num [baseloadScenario, Scenario.run, Scenario.runFrom,
      Scenario.stepAt, scenarioStep, Scenario.sweep, ScenarioRun.shortages,
      StorageDispatcher.chargeAt, StorageDispatcher.dischargeAt,
      chargeStorages, dischargeStorages, SourceDispatcher.shutDownAll,
      SourceDispatcher.dispatchAt, dispatchSources,
      PowerSource.netGeneration, PowerSource.generation]
  · norm_num [baseloadScenario, Scenario.run, Scenario.runFrom,
      Scenario.stepAt, scenarioStep, Scenario.sweep,
      ScenarioRun.computeGeneration, StorageDispatcher.chargeAt,
      StorageDispatcher.dischargeAt, chargeStorages, dischargeStorages,
      SourceDispatcher.shutDownAll, SourceDispatcher.dispatchAt,
      dispatchSources, PowerSource.netGeneration, PowerSource.generation,
      List.filter]

/-- Claim C2 witness: the amended statement applied at the scenario
itself. -/
theorem C2_end_to_end_witness :
    (Scenario.run baseloadScenario).2.shortages = [-500, 0, 500] ∧
      (Scenario.run baseloadScenario).2.computeGeneration "baseload"
        = 3000 :=
  C2_end_to_end baseloadScenario rfl

/-- Claim C10: `Scenario.run` leaves the mutable resource state behind:
after the first run of the 2-step storage scenario the battery holds
50 MWh (it started at 0 and is not reset), and a second run started from
that final state records a different shortage series — `[-50, 0]`
(a dump, because the battery is already full) instead of `[0, 0]`. -/
theorem C10_run_state_persists :
    (persistenceScenario.storages.map EnergyStorage.currentEnergy
        = [0]) ∧
      ((Scenario.run persistenceScenario).1.storages.map
          EnergyStorage.currentEnergy = [50]) ∧
      (Scenario.run persistenceScenario).2.shortages = [0, 0] ∧
      (Scenario.run (Scenario.run persistenceScenario).1).2.shortages
        = [-50, 0] ∧
      (Scenario.run persistenceScenario).2.shortages
        ≠ (Scenario.run (Scenario.run persistenceScenario).1).2.shortages := by
  have h1 : (Scenario.run persistenceScenario).1
      = { persistenceScenario with
          storages := [⟨"battery", 50, 50, 1, 50, 0⟩] } := by
    norm_num [persistenceScenario, Scenario.run, Scenario.runFrom,
      Scenario.stepAt, scenarioStep, Scenario.sweep,
      StorageDispatcher.chargeAt, StorageDispatcher.dischargeAt,
      chargeStorages, dischargeStorages, EnergyStorage.chargeAt,
      EnergyStorage.dischargeAt, EnergyStorage.remainingCapacity,
      SourceDispatcher.shutDownAll, SourceDispatcher.dispatchAt,
      dispatchSources, PowerSource.netGeneration, PowerSource.generation]
  refine ⟨by norm_num [persistenceScenario], ?_, ?_, ?_, ?_⟩
  · rw [h1]
    norm_num [persistenceScenario]
  · norm_num [persistenceScenario, Scenario.run, Scenario.runFrom,
      Scenario.stepAt, scenarioStep, Scenario.sweep, ScenarioRun.shortages,
      StorageDispatcher.chargeAt, StorageDispatcher.dischargeAt,
      chargeStorages, dischargeStorages, EnergyStorage.chargeAt,
      EnergyStorage.dischargeAt, EnergyStorage.remainingCapacity,
      SourceDispatcher.shutDownAll, SourceDispatcher.dispatchAt,
      dispatchSources, PowerSource.netGeneration, PowerSource.generation]
  · rw [h1]
    norm_num [persistenceScenario, Scenario.run, Scenario.runFrom,
      Scenario.stepAt, scenarioStep, Scenario.sweep, ScenarioRun.shortages,
      StorageDispatcher.chargeAt, StorageDispatcher.dischargeAt,
      chargeStorages, dischargeStorages, EnergyStorage.chargeAt,
      EnergyStorage.dischargeAt, EnergyStorage.remainingCapacity,
      SourceDispatcher.shutDownAll, SourceDispatcher.dispatchAt,
      dispatchSources, PowerSource.netGeneration, PowerSource.generation]
  · intro h
    rw [h1] at h
    norm_num [persistenceScenario, Scenario.run, Scenario.runFrom,
      Scenario.stepAt, scenarioStep, Scenario.sweep, ScenarioRun.shortages,
      StorageDispatcher.chargeAt, StorageDispatcher.dischargeAt,
      chargeStorages, dischargeStorages, EnergyStorage.chargeAt,
      EnergyStorage.dischargeAt, EnergyStorage.remainingCapacity,
      SourceDispatcher.shutDownAll, SourceDispatcher.dispatchAt,
      dispatchSources, PowerSource.netGeneration, PowerSource.generation]
      at h

end ElectricWaltz
